import Mathlib

/-!
Shallow embedding of the NFL game-stats engine (`src/api/lib/nfl_core.py` and
the cache payload rebuilder in `src/api/lib/cache.py`) together with theorems
settling the specification claims about it.

Modelling conventions:
* Python strings are Lean `String`s (ASCII assumed for case folding and the
  `\w`/`\s` regex character classes, which is what the play-by-play feed uses).
* Python numbers are `ℚ` (exact rationals standing for the floats the code
  manipulates) and `ℤ` for downs/periods.
* A Python dict field that may be absent is an `Option`; `dict.get(k, d)`
  becomes `Option.getD`.
* The regular expressions of the source are implemented as explicit scanners
  over `List Char` with the same matching semantics on the inputs in scope.
-/

namespace NflCore

/-! ### Python string primitives -/

/-- ASCII lower-casing of one character, as `str.lower` does on ASCII text. -/
def pyLowerChar (c : Char) : Char :=
  if 'A' ≤ c && c ≤ 'Z' then Char.ofNat (c.toNat + 32) else c

/-- ASCII upper-casing of one character, as `str.upper` does on ASCII text. -/
def pyUpperChar (c : Char) : Char :=
  if 'a' ≤ c && c ≤ 'z' then Char.ofNat (c.toNat - 32) else c

/-- `s.lower()` on ASCII text. -/
def pyLower (s : String) : String := String.mk (s.data.map pyLowerChar)

/-- `s.upper()` on ASCII text. -/
def pyUpper (s : String) : String := String.mk (s.data.map pyUpperChar)

/-- Characters matched by Python's `\s` (ASCII range). -/
def isPySpace (c : Char) : Bool :=
  c = ' ' || c = '\t' || c = '\n' || c = '\x0d' || c = '\x0b' || c = '\x0c'

/-- Characters matched by Python's `\w` (ASCII range). -/
def isWordChar (c : Char) : Bool := c.isAlpha || c.isDigit || c = '_'

/-- Does `pre` occur at the very front of `l`? -/
def prefEq : List Char → List Char → Bool
  | [], _ => true
  | _ :: _, [] => false
  | a :: as, b :: bs => a = b && prefEq as bs

/-- Substring test: Python's `needle in hay`. -/
def occursIn (needle : List Char) : List Char → Bool
  | [] => needle.isEmpty
  | c :: rest => prefEq needle (c :: rest) || occursIn needle rest

/-- Python `needle in hay` on strings. -/
def strHas (hay needle : String) : Bool := occursIn needle.data hay.data

/-- Python `s.lstrip()` (ASCII whitespace). -/
def lstripPy : List Char → List Char
  | [] => []
  | c :: rest => if isPySpace c then lstripPy rest else c :: rest

/-- Drop a literal keyword (given lower-case) from the front of `l`,
comparing case-insensitively; returns the remainder on success. -/
def dropKw : List Char → List Char → Option (List Char)
  | [], rest => some rest
  | _ :: _, [] => none
  | k :: ks, c :: cs => if pyLowerChar c = k then dropKw ks cs else none

/-- Greedily consume `\s*`. -/
def eatSpaces : List Char → List Char
  | [] => []
  | c :: rest => if isPySpace c then eatSpaces rest else c :: rest

/-! ### The replay-decision regex  `\b(?:reversed|overturned)\b[.:]?\s*`

`final_play_text` keeps only the text after the LAST match of this pattern
(`nfl_core.py` lines 13, 23-42). -/

/-- Attempt to match the replay-decision pattern at the head of `l`, where
`prev` is the character just before `l` (for the leading `\b`).  On success
returns the remainder of the text after the match. -/
def replayMatchAt (prev : Option Char) (l : List Char) : Option (List Char) :=
  if (match prev with | some c => isWordChar c | none => false) then none
  else
    let kwRest :=
      match dropKw "reversed".data l with
      | some r => some r
      | none => dropKw "overturned".data l
    match kwRest with
    | none => none
    | some rest =>
      match rest with
      | [] => some []
      | c :: cs =>
        if isWordChar c then none
        else if c = '.' || c = ':' then some (eatSpaces cs)
        else some (eatSpaces rest)

/-- Scan the whole text and return the remainder after the LAST match of the
replay-decision pattern, if any. -/
def lastReplayRemainder : Option Char → List Char → Option (List Char) →
    Option (List Char)
  | prev, [], acc =>
    (match replayMatchAt prev [] with
     | some r => some r
     | none => acc)
  | prev, c :: rest, acc =>
    lastReplayRemainder (some c) rest
      (match replayMatchAt prev (c :: rest) with
       | some r => some r
       | none => acc)

/-- `final_play_text` (`nfl_core.py` lines 23-42): text after the last
`REVERSED`/`OVERTURNED` marker when present and non-blank, otherwise the
original text; `''` for empty input. -/
def final_play_text (text : String) : String :=
  if text = "" then ""
  else
    match lastReplayRemainder none text.data none with
    | none => text
    | some remainder =>
      let candidate := lstripPy remainder
      if candidate.isEmpty then text else String.mk candidate

/-! ### `calculate_success` (`nfl_core.py` lines 180-193) -/

/-- `calculate_success(down, distance, yards_gained)`:
40%/60%/100% of distance for downs 1/2/3-4, `False` otherwise. -/
def calculate_success (down : ℤ) (distance yards_gained : ℚ) : Bool :=
  if down = 1 then yards_gained ≥ (4 / 10 : ℚ) * distance
  else if down = 2 then yards_gained ≥ (6 / 10 : ℚ) * distance
  else if down = 3 ∨ down = 4 then yards_gained ≥ distance
  else false

/-! ### Data model

One play object of the ESPN feed, restricted to the keys the functions under
study read.  `none` stands for an absent key (every read in the source goes
through `dict.get` with a default). -/

structure PenaltyInfo where
  typeSlug : Option String := none
  statusSlug : Option String := none
  yards : Option ℚ := none
  teamId : Option String := none
  deriving Repr, DecidableEq

structure StatEntry where
  typeAbbr : Option String := none
  typeText : Option String := none
  deriving Repr, DecidableEq

structure Play where
  id : Option String := none
  text : Option String := none
  typeText : Option String := none
  periodNumber : Option ℤ := none
  clockDisplay : Option String := none
  statYardage : Option ℚ := none
  startDown : Option ℤ := none
  startDistance : Option ℚ := none
  startYardsToEndzone : Option ℚ := none
  startTeamId : Option String := none
  endTeamId : Option String := none
  endPossessionText : Option String := none
  endDownDistanceText : Option String := none
  teamAbbreviation : Option String := none
  penalty : Option PenaltyInfo := none
  hasPenalty : Bool := false
  scoringPlay : Bool := false
  statistics : List StatEntry := []
  homeScore : Option ℚ := none
  awayScore : Option ℚ := none
  deriving Repr, DecidableEq

/-- One (truthy) entry of the play-id → probability map. -/
structure ProbEntry where
  homeWinPercentage : Option ℚ := none
  awayWinPercentage : Option ℚ := none
  tiePercentage : Option ℚ := none
  deriving Repr, DecidableEq

/-- `probability_map`: play id → probability entry.  A key bound to an empty
dict in Python is falsy and behaves exactly like an absent key everywhere in
the source, so it is modelled as absent. -/
abbrev ProbMap := List (String × ProbEntry)

/-- First-match association-list lookup (Python dicts have unique keys; where
the source builds a dict by later-wins comprehension we reverse the list
before using this). -/
def lookupStr {α : Type} (m : List (String × α)) (k : String) : Option α :=
  match m with
  | [] => none
  | (k', v) :: rest => if k' = k then some v else lookupStr rest k

def probLookup (m : ProbMap) (k : String) : Option ProbEntry := lookupStr m k

structure Drive where
  teamId : Option String := none
  startYardsToEndzone : Option ℚ := none
  startText : Option String := none
  plays : List Play := []
  deriving Repr, DecidableEq

/-- The parts of the game payload that `process_game_stats` reads for the
counters modelled here: `boxscore.teams[]` as (id, abbreviation) pairs and
`drives.previous[]`. -/
structure GameData where
  teams : List (String × String) := []
  drives : List Drive := []
  deriving Repr, DecidableEq

/-! ### `is_competitive_play` (`nfl_core.py` lines 315-361) -/

/-- Inner helper `_is_competitive_from_probs`: `None` when either probability
is missing (or not convertible to float), else `max(home, away) < threshold`. -/
def isCompetFromProbs (wpThreshold : ℚ) (homeWp awayWp : Option ℚ) : Option Bool :=
  match homeWp, awayWp with
  | some h, some a => some (decide (max h a < wpThreshold))
  | _, _ => none

/-- `is_competitive_play(play, probability_map, wp_threshold, start_home_wp,
start_away_wp)`. -/
def is_competitive_play (play : Play) (probabilityMap : ProbMap)
    (wpThreshold : ℚ) (startHomeWp startAwayWp : Option ℚ) : Bool :=
  let period := play.periodNumber.getD 0
  if period ≥ 5 then true
  else
    let startCompetitive : Option Bool :=
      match startHomeWp, startAwayWp with
      | some sh, some sa => isCompetFromProbs wpThreshold (some sh) (some sa)
      | _, _ => none
    let prob : Option ProbEntry :=
      match play.id with
      | some pid => probLookup probabilityMap pid
      | none => none
    let endCompetitive : Option Bool :=
      match prob with
      | some p =>
        isCompetFromProbs wpThreshold
          (some (p.homeWinPercentage.getD (1 / 2)))
          (some (p.awayWinPercentage.getD (1 / 2)))
      | none => none
    match startCompetitive, endCompetitive with
    | none, none => true
    | none, some e => e
    | some s, none => s
    | some s, some e => s || e

/-! ### Keyword classifiers (`nfl_core.py` lines 196-312) -/

/-- `any_stat_contains(play, needles)`. -/
def any_stat_contains (play : Play) (needles : List String) : Bool :=
  play.statistics.any fun st =>
    let abbr := pyLower (st.typeAbbr.getD "")
    let txt := pyLower (st.typeText.getD "")
    needles.any fun n => strHas abbr n || strHas txt n

/-- `is_penalty_play(play, text_lower, type_lower)`. -/
def is_penalty_play (play : Play) (textLower typeLower : String) : Bool :=
  if strHas textLower "declined" then false
  else if strHas textLower "offsetting" then false
  else if play.penalty.isSome && strHas textLower "no play" then true
  else if play.hasPenalty && strHas textLower "no play" then true
  else if strHas textLower "no play" &&
      (strHas textLower "penalty" || strHas typeLower "penalty") then true
  else false

/-- `is_spike_or_kneel(text_lower, type_lower)`. -/
def is_spike_or_kneel (textLower typeLower : String) : Bool :=
  if strHas textLower "spike" || strHas typeLower "spike" then true
  else if strHas textLower "kneel" || strHas typeLower "kneel" ||
      strHas textLower "qb kneel" then true
  else false

/-- `is_special_teams_play(text_lower, type_lower)`. -/
def is_special_teams_play (textLower typeLower : String) : Bool :=
  if strHas textLower "touchdown" || strHas typeLower "touchdown" then false
  else
    ["punt", "kickoff", "field goal", "extra point", "xp", "fg", "onside"].any
      fun k => strHas textLower k || strHas typeLower k

/-- `is_nullified_play(text_lower)`. -/
def is_nullified_play (textLower : String) : Bool :=
  strHas textLower "nullified" || strHas textLower "no play"

/-- The rush-direction phrase list shared by both classifiers. -/
def rushPatterns : List String :=
  ["up the middle", "left end", "right end", "left tackle",
   "right tackle", "left guard", "right guard", "middle for",
   "around left", "around right"]

/-- `classify_offense_play(play) → (is_offense_play, is_run, is_pass)`
(`nfl_core.py` lines 273-312). -/
def classify_offense_play (play : Play) : Bool × Bool × Bool :=
  let textLower := pyLower (play.text.getD "")
  let typeLower := pyLower (play.typeText.getD "unknown")
  if is_nullified_play textLower then (false, false, false)
  else if is_penalty_play play textLower typeLower then (false, false, false)
  else if is_spike_or_kneel textLower typeLower then (false, false, false)
  else if is_special_teams_play textLower typeLower then (false, false, false)
  else if (strHas textLower "kickoff" || strHas typeLower "kickoff") &&
      strHas typeLower "return" then (false, false, false)
  else if (strHas textLower "punt" || strHas typeLower "punt") &&
      strHas typeLower "return" then (false, false, false)
  else
    let passHint := any_stat_contains play ["pass", "sack"] ||
      strHas typeLower "pass" || strHas typeLower "sack" ||
      strHas typeLower "scramble" || strHas textLower "pass" ||
      strHas textLower "sack" || strHas textLower "scramble"
    let rushHint := any_stat_contains play ["rush"] || strHas typeLower "rush" ||
      strHas textLower "run" || rushPatterns.any fun p => strHas textLower p
    let rushHint :=
      if passHint && rushHint &&
          (strHas textLower "scramble" || strHas typeLower "scramble") then false
      else rushHint
    (true, rushHint, passHint)

/-! ### The `recovered by <ABBR>` regex  `\brecovered by\s+([a-z]{2,4})\b`
(`nfl_core.py` line 16) and the team-abbreviation alias table (lines 17-20). -/

/-- `_TEAM_ABBR_ALIASES` of `nfl_core.py`: only `was → wsh`. -/
def TEAM_ABBR_ALIASES : List (String × String) := [("was", "wsh")]

def aliasGet (a : String) : String := (lookupStr TEAM_ABBR_ALIASES a).getD a

/-- Length of the maximal run of `[a-z]` characters at the front. -/
def lowerRun : List Char → Nat
  | [] => 0
  | c :: rest => if 'a' ≤ c && c ≤ 'z' then lowerRun rest + 1 else 0

/-- Word-boundary test against the preceding character. -/
def prevIsWord (prev : Option Char) : Bool :=
  match prev with
  | some c => isWordChar c
  | none => false

/-- Match `\brecovered by\s+([a-z]{2,4})\b` at the head of `l` and return the
captured abbreviation. -/
def recAbbrAt (prev : Option Char) (l : List Char) : Option String :=
  if prevIsWord prev then none
  else
    match dropKw "recovered by".data l with
    | none => none
    | some rest =>
      match rest with
      | [] => none
      | c :: cs =>
        if isPySpace c then
          let rest2 := eatSpaces cs
          let r := lowerRun rest2
          if 2 ≤ r && r ≤ 4 then
            match rest2.drop r with
            | [] => some (String.mk (rest2.take r))
            | d :: _ =>
              if isWordChar d then none else some (String.mk (rest2.take r))
          else none
        else none

def findRecAux : Option Char → List Char → Option String
  | _, [] => none
  | prev, c :: rest =>
    match recAbbrAt prev (c :: rest) with
    | some a => some a
    | none => findRecAux (some c) rest

/-- `_RECOVERED_BY_ABBR_RE.search(event_text_lower)`: first match, captured
group. -/
def findRecoveredAbbr (s : String) : Option String := findRecAux none s.data

/-! ### The yardage regexes used by `_credited_yards_before_fumble`
(`nfl_core.py` lines 14-15, 45-78). -/

def digitRun : List Char → Nat
  | [] => 0
  | c :: rest => if c.isDigit then digitRun rest + 1 else 0

def digitsToNatAux (acc : Nat) : List Char → Nat
  | [] => acc
  | c :: rest => digitsToNatAux (acc * 10 + (c.toNat - '0'.toNat)) rest

/-- Match `\bfor (-?\d+) yards\b` at the head of `l`; returns the signed
captured number. -/
def yardsForAt (prev : Option Char) (l : List Char) : Option ℤ :=
  if prevIsWord prev then none
  else
    match dropKw "for ".data l with
    | none => none
    | some rest =>
      let neg := match rest with | '-' :: _ => true | _ => false
      let rest2 := match rest with | '-' :: cs => cs | _ => rest
      let d := digitRun rest2
      if d = 0 then none
      else
        let n : ℤ := digitsToNatAux 0 (rest2.take d)
        match dropKw " yards".data (rest2.drop d) with
        | none => none
        | some tail =>
          let v := if neg then -n else n
          match tail with
          | [] => some v
          | c :: _ => if isWordChar c then none else some v

/-- Remainder after the last `\bfor (-?\d+) yards\b` match: the value the code
takes via `matches[-1]`. -/
def lastYardsForAux : Option Char → List Char → Option ℤ → Option ℤ
  | _, [], acc => acc
  | prev, c :: rest, acc =>
    let acc2 := match yardsForAt prev (c :: rest) with
      | some v => some v
      | none => acc
    lastYardsForAux (some c) rest acc2

/-- Match `\bfor loss of (\d+) yards\b` at the head of `l`. -/
def yardsLossAt (prev : Option Char) (l : List Char) : Option ℤ :=
  if prevIsWord prev then none
  else
    match dropKw "for loss of ".data l with
    | none => none
    | some rest =>
      let d := digitRun rest
      if d = 0 then none
      else
        let n : ℤ := digitsToNatAux 0 (rest.take d)
        match dropKw " yards".data (rest.drop d) with
        | none => none
        | some tail =>
          match tail with
          | [] => some n
          | c :: _ => if isWordChar c then none else some n

def firstYardsLossAux : Option Char → List Char → Option ℤ
  | _, [] => none
  | prev, c :: rest =>
    match yardsLossAt prev (c :: rest) with
    | some v => some v
    | none => firstYardsLossAux (some c) rest

/-- Characters before the first occurrence of `needle` (Python
`s.split(needle, 1)[0]`). -/
def takeUntilSub (needle : List Char) : List Char → List Char
  | [] => []
  | c :: rest =>
    if prefEq needle (c :: rest) then []
    else c :: takeUntilSub needle rest

/-- `_credited_yards_before_fumble(event_text)` (`nfl_core.py` lines 45-78). -/
def credited_yards_before_fumble (eventText : String) : Option ℤ :=
  if eventText = "" then none
  else
    let lower := pyLower eventText
    if !strHas lower "fumble" then none
    else
      let pre := String.mk (takeUntilSub "fumble".data lower.data)
      match lastYardsForAux none pre.data none with
      | some n => some n
      | none =>
        if strHas pre "for no gain" || strHas pre "for no loss" then some 0
        else
          match firstYardsLossAux none pre.data with
          | some n => some (-n)
          | none => none

/-! ### The per-play turnover attribution block of `process_game_stats`
(`nfl_core.py` lines 769-877). -/

/-- Per-play inputs of the turnover block, as computed by the surrounding
loop. -/
structure TOInput where
  eventTextLower : String
  playTypeLower : String
  hasReplayReversal : Bool
  /-- `start_team_id` after the `or team_id` default. -/
  startTeamId : String
  /-- `play.get('start',{}).get('team',{}).get('id')` without the default. -/
  explicitStartTeamId : Option String
  endTeamId : Option String
  offenseAbbrev : String
  opponentId : Option String
  teamId : String
  deriving Repr, DecidableEq

/-- Outcome of the turnover block. -/
structure TOResult where
  isTwoPoint : Bool
  interception : Bool
  fumblePhrase : Bool
  fumbleTurnover : Bool
  muffedKick : Bool
  events : List (String × String)
  deriving Repr, DecidableEq

def TOResult.turnoverOnPlay (r : TOResult) : Bool := !r.events.isEmpty

/-- Flip the possession context to team `o`:
`current_possessor = o; current_off_abbr = id_to_abbr.get(o, '').lower()`. -/
def oppFlip (idToAbbr : List (String × String)) (o : String) : String × String :=
  (o, pyLower ((lookupStr idToAbbr o).getD ""))

/-- The fumble-recovery resolution chain (`nfl_core.py` lines 840-858):
play-type tag, then `recovered by <ABBR>` (alias-normalized), then a generic
self-recovery phrase, then the play's end team. -/
def resolveFumbleRecovery (abbrToId : List (String × String))
    (etl ptl : String) (possessor : String)
    (endTeamId opponentId : Option String) : Option String :=
  if strHas ptl "fumble recovery (own)" then some possessor
  else if (strHas ptl "fumble recovery (opponent)" ||
      strHas ptl "sack opp fumble recovery") && opponentId.isSome then opponentId
  else
    match findRecoveredAbbr etl with
    | some ab =>
      (match lookupStr abbrToId (aliasGet ab) with
       | some tid => some tid
       | none => endTeamId)
    | none =>
      if strHas etl "and recovers" || strHas etl "recovers at" then some possessor
      else endTeamId

/-- `is_two_point_conversion_attempt` (`nfl_core.py` 773-777). -/
def twoPointText (etl : String) : Bool :=
  strHas etl "two-point" || strHas etl "2-point" || strHas etl "conversion attempt"

/-- `muffed_kick` (`nfl_core.py` 785-786), which subsumes `muffed_punt`. -/
def muffedKickOf (etl ptl : String) : Bool :=
  (strHas etl "muffed punt" || strHas ptl "muff") ||
    strHas etl "muffed kick" || strHas etl "muffed kickoff"

/-- `interception` with the replay-reversal override (`nfl_core.py`
787-789). -/
def interceptionOf (etl ptl : String) (hasReplayReversal : Bool) : Bool :=
  let interception0 := strHas ptl "interception" || strHas etl "intercept"
  if hasReplayReversal &&
      (!strHas etl "intercept" && !strHas etl "interception") then false
  else interception0

/-- `onside_kick` (`nfl_core.py` 809). -/
def onsideKickOf (etl : String) : Bool := strHas etl "onside" && strHas etl "kick"

/-- `kicking_team_recovered_onside` (`nfl_core.py` 810-818). -/
def kickingRecoveredOnsideOf (inp : TOInput) : Bool :=
  onsideKickOf inp.eventTextLower &&
  (match inp.endTeamId with
   | none => false
   | some e =>
     decide (e ≠ inp.teamId) && strHas inp.eventTextLower "recovered" &&
     (match inp.explicitStartTeamId with
      | none => true
      | some s => decide (e = s)))

/-- The `current_possessor` / `current_off_abbr` pair just before the
interception check: start team, then the punt-in-air, muffed-kick and
kickoff-return-fumble flips (`nfl_core.py` 796-832). -/
def possessorBeforeInterception (idToAbbr : List (String × String))
    (inp : TOInput) : String × String :=
  let etl := inp.eventTextLower
  let ptl := inp.playTypeLower
  let muffedKick := muffedKickOf etl ptl
  let fumblePhrase := strHas etl "fumble"
  let puntInAir := strHas etl "punts"
  let p1 :=
    if puntInAir && inp.opponentId.isSome && (fumblePhrase || muffedKick) then
      oppFlip idToAbbr (inp.opponentId.getD "")
    else (inp.startTeamId, inp.offenseAbbrev)
  let p2 :=
    if muffedKick && inp.opponentId.isSome then
      oppFlip idToAbbr (inp.opponentId.getD "")
    else p1
  let kickoffPlay := strHas ptl "kickoff" || strHas etl "kickoff"
  if kickoffPlay && fumblePhrase && inp.opponentId.isSome &&
      !onsideKickOf etl && !muffedKick then
    oppFlip idToAbbr (inp.opponentId.getD "")
  else p2

/-- The `current_possessor` / `current_off_abbr` pair at fumble-resolution
time: the pre-interception possessor, flipped to the opponent when an
interception was detected (`nfl_core.py` 834-838). -/
def possessorAtFumble (idToAbbr : List (String × String))
    (inp : TOInput) : String × String :=
  let p3 := possessorBeforeInterception idToAbbr inp
  if interceptionOf inp.eventTextLower inp.playTypeLower inp.hasReplayReversal then
    match inp.opponentId with
    | some o => oppFlip idToAbbr o
    | none => p3
  else p3

/-- `fumble_turnover` (`nfl_core.py` 840-870): true when the resolved
recovering team differs from the possessor at fumble time, with the
`recovered by` / self-recovery fallbacks when the resolution is `None`, and
forced true on a touchback. -/
def fumbleTurnoverOf (idToAbbr abbrToId : List (String × String))
    (inp : TOInput) : Bool :=
  let etl := inp.eventTextLower
  let ptl := inp.playTypeLower
  if strHas etl "fumble" then
    let pa := possessorAtFumble idToAbbr inp
    let base :=
      match resolveFumbleRecovery abbrToId etl ptl pa.1
          inp.endTeamId inp.opponentId with
      | some rt => decide (rt ≠ pa.1)
      | none =>
        if strHas etl "recovered by" then
          if pa.2 = "" then true
          else !strHas etl ("recovered by " ++ pa.2)
        else false
    if strHas etl "touchback" then true else base
  else false

/-- The turnover attribution block (`nfl_core.py` 769-877), producing the
ordered `turnover_events` list together with the flags reused by the yardage
accounting below it. -/
def computeTurnover (idToAbbr abbrToId : List (String × String))
    (inp : TOInput) : TOResult :=
  let etl := inp.eventTextLower
  let ptl := inp.playTypeLower
  if twoPointText etl then
    { isTwoPoint := true, interception := false, fumblePhrase := false,
      fumbleTurnover := false, muffedKick := false, events := [] }
  else
    let muffedKick := muffedKickOf etl ptl
    let interception := interceptionOf etl ptl inp.hasReplayReversal
    let fumblePhrase := strHas etl "fumble"
    let kickingTeamRecoveredOnside := kickingRecoveredOnsideOf inp
    let ev1 : List (String × String) :=
      if kickingTeamRecoveredOnside then [(inp.teamId, "onside_kick_lost")] else []
    let p3 := possessorBeforeInterception idToAbbr inp
    let p4 := possessorAtFumble idToAbbr inp
    let ev2 := if interception then ev1 ++ [(p3.1, "interception")] else ev1
    let fumbleTurnover := fumbleTurnoverOf idToAbbr abbrToId inp
    let ev3 :=
      if fumbleTurnover && !muffedKick then ev2 ++ [(p4.1, "fumble")] else ev2
    let ev4 :=
      if muffedKick && !kickingTeamRecoveredOnside then
        ev3 ++ [(p4.1, "muffed_kick")]
      else ev3
    { isTwoPoint := false, interception := interception,
      fumblePhrase := fumblePhrase, fumbleTurnover := fumbleTurnover,
      muffedKick := muffedKick, events := ev4 }

/-! ### `process_game_stats` (`nfl_core.py` lines 364-1154), restricted to the
observable state the claims are about: per-team Plays / Offensive Yards /
Successful / Explosive / Turnovers counters, the Turnovers and Explosive
Plays detail lists, and the `prev_home_wp` / `prev_away_wp` tracker.  State
the source mutates that no claim observes (total-offense yards, special-teams
sums, drive-trip counters, penalty and All-Plays detail lists, the detail
entries' `end_pos` field) is not carried. -/

/-- A probability snapshot from `lookup_probability_with_delta`
(`nfl_core.py` lines 423-443). -/
structure ProbSnapshot where
  homeWinPercentage : ℚ
  awayWinPercentage : ℚ
  tiePercentage : ℚ
  homeDelta : ℚ
  awayDelta : ℚ
  deriving Repr, DecidableEq

def lookupProbabilityWithDelta (m : ProbMap) (prevHomeWp prevAwayWp : ℚ)
    (p : Play) : Option ProbSnapshot :=
  match p.id with
  | none => none
  | some pid =>
    match probLookup m pid with
    | none => none
    | some e =>
      let h := e.homeWinPercentage.getD (1 / 2)
      let a := e.awayWinPercentage.getD (1 / 2)
      some { homeWinPercentage := h, awayWinPercentage := a,
             tiePercentage := e.tiePercentage.getD 0,
             homeDelta := h - prevHomeWp, awayDelta := a - prevAwayWp }

/-- One entry of a team's `Turnovers` detail list (`nfl_core.py` 884-893). -/
structure TurnoverDetail where
  ptype : String
  text : String
  yards : ℚ
  quarter : Option ℤ
  clock : Option String
  probability : Option ProbSnapshot
  reason : String
  deriving Repr, DecidableEq

/-- One entry of a team's `Explosive Plays` detail list
(`nfl_core.py` 957-965). -/
structure ExplosiveDetail where
  yards : ℚ
  text : String
  ptype : String
  quarter : Option ℤ
  clock : Option String
  probability : Option ProbSnapshot
  deriving Repr, DecidableEq

/-- The per-team accumulator (the claim-relevant keys of `stats[t_id]` plus
the two detail lists). -/
structure TeamAcc where
  turnovers : ℕ := 0
  plays : ℕ := 0
  offensiveYards : ℚ := 0
  successfulPlays : ℕ := 0
  explosivePlays : ℕ := 0
  turnoverDetails : List TurnoverDetail := []
  explosiveDetails : List ExplosiveDetail := []
  deriving Repr, DecidableEq

abbrev StatsMap := List (String × TeamAcc)

structure ProcState where
  stats : StatsMap
  prevHomeWp : ℚ
  prevAwayWp : ℚ
  deriving Repr, DecidableEq

def memKey {α : Type} (m : List (String × α)) (k : String) : Bool :=
  m.any (·.1 == k)

def updStats (m : StatsMap) (tid : String) (f : TeamAcc → TeamAcc) : StatsMap :=
  match m with
  | [] => []
  | kv :: rest => (if kv.1 = tid then (kv.1, f kv.2) else kv) :: updStats rest tid f

/-- Python-dict insertion (later assignments win, first-insertion key order). -/
def dictInsert {α : Type} (m : List (String × α)) (k : String) (v : α) :
    List (String × α) :=
  if memKey m k then m.map (fun kv => if kv.1 = k then (k, v) else kv)
  else m ++ [(k, v)]

/-- `id_to_abbr` built at `nfl_core.py` 455-459: teams with truthy id and
abbreviation. -/
def buildIdToAbbr (teams : List (String × String)) : List (String × String) :=
  teams.foldl
    (fun m t => if t.1 ≠ "" ∧ t.2 ≠ "" then dictInsert m t.1 t.2 else m) []

/-- `abbr_to_id` (`nfl_core.py` 460): lower-cased abbreviation → id. -/
def buildAbbrToId (idToAbbr : List (String × String)) : List (String × String) :=
  idToAbbr.foldl (fun m kv => dictInsert m (pyLower kv.2) kv.1) []

/-- `stats` initialisation (`nfl_core.py` 494-519): one fresh accumulator per
box-score team id. -/
def initStats (teams : List (String × String)) : StatsMap :=
  teams.foldl (fun m t => dictInsert m t.1 {}) []

/-- `sanitize_prob` (`nfl_core.py` 381-385). -/
def sanitizeProb (v : Option ℚ) (fallback : ℚ) : ℚ :=
  match v with
  | some q => max 0 (min 1 q)
  | none => fallback

/-- `update_prev_wp` (`nfl_core.py` 445-453): copies the play's end-of-play
probabilities into the tracker, raw and unclamped. -/
def updatePrevWp (m : ProbMap) (p : Play) (st : ProcState) : ProcState :=
  match p.id with
  | none => st
  | some pid =>
    match probLookup m pid with
    | none => st
    | some e =>
      { st with prevHomeWp := e.homeWinPercentage.getD st.prevHomeWp,
                prevAwayWp := e.awayWinPercentage.getD st.prevAwayWp }

structure ProcCtx where
  probabilityMap : ProbMap
  wpThreshold : ℚ
  expanded : Bool
  idToAbbr : List (String × String)
  abbrToId : List (String × String)
  deriving Repr

/-- Record one turnover event (`nfl_core.py` 879-893): skipped when its team
is not a box-score team, else the counter increments and (when expanded) a
detail entry tagged with the reason is appended. -/
def recordTurnoverEvent (expanded : Bool) (p : Play) (playType text : String)
    (snapshot : Option ProbSnapshot) (acc : StatsMap) (ev : String × String) :
    StatsMap :=
  if memKey acc ev.1 then
    updStats acc ev.1 fun t =>
      { t with
        turnovers := t.turnovers + 1,
        turnoverDetails :=
          if expanded then
            t.turnoverDetails ++
              [{ ptype := playType, text := text,
                 yards := p.statYardage.getD 0,
                 quarter := p.periodNumber, clock := p.clockDisplay,
                 probability := snapshot, reason := ev.2 }]
          else t.turnoverDetails }
  else acc

def applyTurnoverEvents (expanded : Bool) (p : Play) (playType text : String)
    (snapshot : Option ProbSnapshot) (events : List (String × String))
    (stats : StatsMap) : StatsMap :=
  events.foldl (recordTurnoverEvent expanded p playType text snapshot) stats

/-- The offensive-stats block (`nfl_core.py` 920-965): play/ yardage/
success/ explosive accounting with the turnover- and fumble-adjusted yards. -/
def offensiveSection (expanded : Bool) (p : Play) (teamId : String)
    (textLower eventText text : String)
    (snapshot : Option ProbSnapshot) (tr : TOResult)
    (stats : StatsMap) : StatsMap :=
  let cls := classify_offense_play p
  let isOffense := cls.1
  let isRun := cls.2.1
  let isPass := cls.2.2
  if isOffense && (isRun || isPass) then
    let yards0 : ℚ := p.statYardage.getD 0
    let penTypeSlug := p.penalty.bind (·.typeSlug)
    let penStatusSlug := p.penalty.bind (·.statusSlug)
    let isIntentionalGrounding :=
      (penStatusSlug == some "accepted" &&
        penTypeSlug == some "intentional-grounding") ||
      strHas textLower "intentional grounding"
    let yards1 := if isIntentionalGrounding then 0 else yards0
    let yards2 : ℚ :=
      if tr.turnoverOnPlay then
        if tr.fumblePhrase && !tr.interception then
          match credited_yards_before_fumble eventText with
          | some c => (c : ℚ)
          | none => 0
        else 0
      else if tr.fumblePhrase then
        match credited_yards_before_fumble eventText with
        | some c => (c : ℚ)
        | none => yards1
      else yards1
    let down := p.startDown.getD 1
    let dist := p.startDistance.getD 10
    let explosive := (isRun && yards2 ≥ 10) || (isPass && yards2 ≥ 20)
    updStats stats teamId fun t =>
      { t with
        plays := t.plays + 1,
        offensiveYards := t.offensiveYards + yards2,
        successfulPlays :=
          t.successfulPlays + (if calculate_success down dist yards2 then 1 else 0),
        explosivePlays := t.explosivePlays + (if explosive then 1 else 0),
        explosiveDetails :=
          if explosive && expanded then
            t.explosiveDetails ++
              [{ yards := yards2, text := text,
                 ptype := if isRun then "Run" else "Pass",
                 quarter := p.periodNumber, clock := p.clockDisplay,
                 probability := snapshot }]
          else t.explosiveDetails }
  else stats

/-- `start_team_id` after the `or team_id` default (`nfl_core.py` 680). -/
def startTeamIdOf (teamId : String) (p : Play) : String :=
  match p.startTeamId with
  | none => teamId
  | some s => if s = "" then teamId else s

/-- `opponent_id` (`nfl_core.py` 684-686). -/
def opponentIdOf (idToAbbr : List (String × String)) (startTeamId : String) :
    Option String :=
  if idToAbbr.length = 2 && memKey idToAbbr startTeamId then
    (idToAbbr.find? (fun kv => kv.1 != startTeamId)).map (·.1)
  else none

/-- The turnover-block inputs the loop body computes for one play
(`nfl_core.py` 673-686). -/
def toInputOf (ctx : ProcCtx) (teamId : String) (p : Play) : TOInput :=
  let text := p.text.getD ""
  let eventText := final_play_text text
  let startTeamId := startTeamIdOf teamId p
  let teamAbbrevLower := pyLower (p.teamAbbreviation.getD "")
  { eventTextLower := pyLower eventText,
    playTypeLower := pyLower (p.typeText.getD "Unknown"),
    hasReplayReversal := eventText ≠ text,
    startTeamId := startTeamId,
    explicitStartTeamId := p.startTeamId,
    endTeamId := p.endTeamId,
    offenseAbbrev :=
      (if teamAbbrevLower ≠ "" then teamAbbrevLower
       else pyLower ((lookupStr ctx.idToAbbr teamId).getD "")),
    opponentId := opponentIdOf ctx.idToAbbr startTeamId,
    teamId := teamId }

/-- One iteration of the per-play loop (`nfl_core.py` 672-1065) for the
modelled state: skip timeout/period markers and nullified plays, skip
non-competitive plays, otherwise run the turnover block and the offensive
block — always advancing the probability tracker at the end. -/
def processPlay (ctx : ProcCtx) (teamId : String) (st : ProcState)
    (p : Play) : ProcState :=
  let text := p.text.getD ""
  let textLower := pyLower text
  let eventText := final_play_text text
  let playType := p.typeText.getD "Unknown"
  let ptl := pyLower playType
  let competitive := is_competitive_play p ctx.probabilityMap ctx.wpThreshold
    (some st.prevHomeWp) (some st.prevAwayWp)
  if strHas ptl "timeout" || strHas ptl "end of" then
    updatePrevWp ctx.probabilityMap p st
  else if is_nullified_play textLower then
    updatePrevWp ctx.probabilityMap p st
  else if !competitive then
    updatePrevWp ctx.probabilityMap p st
  else
    let tr := computeTurnover ctx.idToAbbr ctx.abbrToId (toInputOf ctx teamId p)
    let snapshot :=
      lookupProbabilityWithDelta ctx.probabilityMap st.prevHomeWp st.prevAwayWp p
    let stats1 :=
      applyTurnoverEvents ctx.expanded p playType text snapshot tr.events st.stats
    let stats2 := offensiveSection ctx.expanded p teamId textLower eventText
      text snapshot tr stats1
    updatePrevWp ctx.probabilityMap p { st with stats := stats2 }

/-- One drive (`nfl_core.py` 648-651): drives whose team is not a box-score
team are skipped whole (their plays do not even advance the tracker). -/
def processDrive (ctx : ProcCtx) (st : ProcState) (d : Drive) : ProcState :=
  match d.teamId with
  | none => st
  | some tid =>
    if memKey st.stats tid then d.plays.foldl (processPlay ctx tid) st
    else st

/-- The processing context `process_game_stats` sets up before the drive
loop. -/
def procCtxOf (g : GameData) (expanded : Bool) (probabilityMap : ProbMap)
    (wpThreshold : ℚ) : ProcCtx :=
  let idToAbbr := buildIdToAbbr g.teams
  { probabilityMap := probabilityMap, wpThreshold := wpThreshold,
    expanded := expanded, idToAbbr := idToAbbr,
    abbrToId := buildAbbrToId idToAbbr }

/-- The initial state: accumulators for every box-score team, tracker seeded
from the pregame probabilities (clamped; away falls back to `1 − home`;
`(0.5, 0.5)` when the argument is absent or not a pair) —
`nfl_core.py` 376-397, 494-519. -/
def initStateOf (g : GameData)
    (pregameProbabilities : Option (Option ℚ × Option ℚ)) : ProcState :=
  let pg := pregameProbabilities.getD (some (1 / 2), some (1 / 2))
  let prevHome := sanitizeProb pg.1 (1 / 2)
  { stats := initStats g.teams, prevHomeWp := prevHome,
    prevAwayWp := sanitizeProb pg.2 (1 - prevHome) }

/-- `process_game_stats`, modelled state: the fold of `processDrive` over
`drives.previous` from the initial state. -/
def processGameStats (g : GameData) (expanded : Bool)
    (probabilityMap : ProbMap)
    (pregameProbabilities : Option (Option ℚ × Option ℚ))
    (wpThreshold : ℚ) : ProcState :=
  g.drives.foldl (processDrive (procCtxOf g expanded probabilityMap wpThreshold))
    (initStateOf g pregameProbabilities)

/-- The plays of one drive the fold actually visits, paired with the drive's
offense id — empty when the drive's team is not a box-score team. -/
def drivePlays (base : StatsMap) (d : Drive) : List (String × Play) :=
  match d.teamId with
  | some tid =>
    if memKey base tid then d.plays.map (fun p => (tid, p)) else []
  | none => []

/-- The flattened sequence of plays the fold actually visits, paired with
their drive's offense id (plays of drives whose team is not a box-score team
are skipped whole). -/
def processedPlays (g : GameData) : List (String × Play) :=
  (g.drives.map (drivePlays (initStats g.teams))).flatten

/-- The state of the fold after its first `n` visited plays. -/
def statesAfter (g : GameData) (expanded : Bool) (probabilityMap : ProbMap)
    (pregameProbabilities : Option (Option ℚ × Option ℚ))
    (wpThreshold : ℚ) (n : ℕ) : ProcState :=
  ((processedPlays g).take n).foldl
    (fun st tp =>
      processPlay (procCtxOf g expanded probabilityMap wpThreshold) tp.1 st tp.2)
    (initStateOf g pregameProbabilities)

/-- Convenience accessor: a team's Turnovers counter. -/
def ProcState.turnoversOf (st : ProcState) (tid : String) : ℕ :=
  ((lookupStr st.stats tid).getD {}).turnovers

/-- Convenience accessor: a team's Turnovers detail list. -/
def ProcState.turnoverDetailsOf (st : ProcState) (tid : String) :
    List TurnoverDetail :=
  ((lookupStr st.stats tid).getD {}).turnoverDetails

/-- Convenience accessor: a team's Explosive Plays counter. -/
def ProcState.explosiveOf (st : ProcState) (tid : String) : ℕ :=
  ((lookupStr st.stats tid).getD {}).explosivePlays

/-! ### The cache layer (`src/api/lib/cache.py`)

`build_cache_plays` (lines 224-400) restricted to the `plays` list it emits
(the `drive_starts` list feeds only the Drive Starts category, which no claim
observes), and `_rebuild_expanded_details_from_cache` (lines 403-597)
restricted to the Turnovers and Explosive Plays categories the claims count.
-/

/-- Python `round(q, 4)`: round half to even at four decimal places (the
floats of the source read as exact rationals). -/
def roundHalfEven (q : ℚ) : ℤ :=
  let f := ⌊q⌋
  let r := q - f
  if r < 1 / 2 then f
  else if r > 1 / 2 then f + 1
  else if f % 2 = 0 then f else f + 1

def round4 (q : ℚ) : ℚ := (roundHalfEven (q * 10000) : ℚ) / 10000

/-- The alias table inside `normalize_abbr` (`cache.py` line 249). -/
def cacheAliases : List (String × String) :=
  [("LA", "LAR"), ("WAS", "WSH"), ("JAC", "JAX")]

/-- `normalize_abbr(abbr, known=...)` (`cache.py` lines 243-257). -/
def normalize_abbr (known : List String) (abbr : String) : String :=
  if abbr = "" then ""
  else
    let a := pyUpper abbr
    if known.contains a then a
    else
      let mappedOk :=
        match lookupStr cacheAliases a with
        | some m => if known.contains m then some m else none
        | none => none
      match mappedOk with
      | some m => m
      | none =>
        if a.length = 2 then
          match known.filter (fun k => prefEq a.data k.data) with
          | [m] => m
          | _ => a
        else a

/-- Match `recovered by\s+([a-z]{2,3})` (no word boundaries; `cache.py`
line 348) at the head of `l`. -/
def cacheRecAt (l : List Char) : Option String :=
  match dropKw "recovered by".data l with
  | none => none
  | some rest =>
    match rest with
    | [] => none
    | c :: cs =>
      if isPySpace c then
        let rest2 := eatSpaces cs
        let r := lowerRun rest2
        if 2 ≤ r then some (String.mk (rest2.take (min r 3))) else none
      else none

def cacheFindRecAux : List Char → Option String
  | [] => none
  | c :: rest =>
    match cacheRecAt (c :: rest) with
    | some a => some a
    | none => cacheFindRecAux rest

def cacheFindRecoveredAbbr (s : String) : Option String := cacheFindRecAux s.data

/-- One element of the cached `plays` list (`cache.py` lines 363-387). -/
structure CachePlay where
  playId : String
  quarter : Option ℤ
  clock : Option String
  text : String
  yards : ℚ
  endPos : Option String
  startHomeWp : Option ℚ
  startAwayWp : Option ℚ
  homeWp : Option ℚ
  awayWp : Option ℚ
  wpDelta : Option ℚ
  isOffensive : Bool
  isRun : Bool
  isPass : Bool
  isSuccessful : Bool
  isTurnover : Bool
  driveTeam : String
  homeScore : ℚ
  awayScore : ℚ
  down : ℤ
  distance : ℚ
  deriving Repr, DecidableEq

/-- The per-play body of `build_cache_plays` for one play of a drive whose
offense abbreviation is `driveTeamAbbr`; threads `(prev_home_wp,
prev_away_wp, plays_list)`. -/
def buildCachePlayStep (probabilityMap : ProbMap) (known : List String)
    (driveTeamAbbr : String) (st : ℚ × ℚ × List CachePlay) (p : Play) :
    ℚ × ℚ × List CachePlay :=
  let prevH := st.1
  let prevA := st.2.1
  let acc := st.2.2
  let playId := (p.id.getD "")
  if playId = "" then (prevH, prevA, acc)
  else
    let prob := probLookup probabilityMap playId
    let homeWp := prob.bind (·.homeWinPercentage)
    let awayWp := prob.bind (·.awayWinPercentage)
    let wpDelta := homeWp.map (· - prevH)
    let cls := classify_offense_play p
    let rawText := p.text.getD ""
    let eventText := final_play_text rawText
    let etl := pyLower eventText
    let isTwoPoint := strHas etl "two-point" || strHas etl "2-point" ||
      strHas etl "conversion attempt"
    let isInterception := !isTwoPoint && strHas etl "intercept"
    let isFumbleTurnover :=
      if !isTwoPoint && strHas etl "fumble" && strHas etl "recovered by" then
        let recoveredAbbr :=
          match cacheFindRecoveredAbbr etl with
          | some s => normalize_abbr known s
          | none => ""
        let offenseAbbr := normalize_abbr known driveTeamAbbr
        if recoveredAbbr ≠ "" ∧ offenseAbbr ≠ "" then
          decide (recoveredAbbr ≠ offenseAbbr)
        else true
      else false
    let yards := p.statYardage.getD 0
    let down := p.startDown.getD 1
    let distance := p.startDistance.getD 10
    let entry : CachePlay :=
      { playId := playId,
        quarter := p.periodNumber,
        clock := p.clockDisplay,
        text := String.mk (rawText.data.take 500),
        yards := yards,
        endPos :=
          (match p.endPossessionText with
           | some s => if s = "" then p.endDownDistanceText else some s
           | none => p.endDownDistanceText),
        startHomeWp := some (round4 prevH),
        startAwayWp := some (round4 prevA),
        homeWp := homeWp.map round4,
        awayWp := awayWp.map round4,
        wpDelta := wpDelta.map round4,
        isOffensive := cls.1, isRun := cls.2.1, isPass := cls.2.2,
        isSuccessful := if cls.1 then calculate_success down distance yards else false,
        isTurnover := isInterception || isFumbleTurnover,
        driveTeam := driveTeamAbbr,
        homeScore := p.homeScore.getD 0, awayScore := p.awayScore.getD 0,
        down := down, distance := distance }
    let prevH2 := match homeWp with | some h => h | none => prevH
    let prevA2 := match awayWp with | some a => a | none => prevA
    (prevH2, prevA2, acc ++ [entry])

/-- `build_cache_plays(raw_data, probability_map, pregame_probabilities)`,
restricted to the emitted `plays` list. -/
def buildCachePlays (g : GameData) (probabilityMap : ProbMap)
    (pregameHomeWp pregameAwayWp : ℚ) : List CachePlay :=
  let idToAbbr := buildIdToAbbr g.teams
  let known := (idToAbbr.map (·.2)).dedup
  let fin := g.drives.foldl
    (fun st d =>
      let driveTeamAbbr :=
        match d.teamId with
        | some tid => (lookupStr idToAbbr tid).getD ""
        | none => ""
      d.plays.foldl (buildCachePlayStep probabilityMap known driveTeamAbbr) st)
    (pregameHomeWp, pregameAwayWp, ([] : List CachePlay))
  fin.2.2

/-- Probability snapshot of a rebuilt detail entry (`cache.py` 485-495). -/
structure RebProb where
  homeWinPercentage : ℚ
  awayWinPercentage : ℚ
  homeDelta : ℚ
  awayDelta : ℚ
  deriving Repr, DecidableEq

/-- A rebuilt detail entry (Turnovers / Explosive Plays categories). -/
structure RebDetail where
  ptype : String
  text : String
  yards : ℚ
  quarter : Option ℤ
  clock : Option String
  endPos : Option String
  probability : Option RebProb
  deriving Repr, DecidableEq

structure RebuildState where
  prevHomeScore : ℚ := 0
  prevAwayScore : ℚ := 0
  turnoverEntries : List (String × RebDetail) := []
  explosiveEntries : List (String × RebDetail) := []
  deriving Repr, DecidableEq

/-- The per-play body of `_rebuild_expanded_details_from_cache`
(`cache.py` lines 439-564), restricted to the two counted categories. -/
def rebuildStep (homeId homeAbbr awayId awayAbbr : String) (wpThreshold : ℚ)
    (st : RebuildState) (play : CachePlay) : RebuildState :=
  let abbrToId := dictInsert (dictInsert [] homeAbbr homeId) awayAbbr awayId
  let teamIdOpt := lookupStr abbrToId play.driveTeam
  match teamIdOpt with
  | none => st
  | some teamId =>
    if teamId = "" then st
    else
      let quarter := play.quarter.getD 0
      let competitive :=
        if quarter ≥ 5 then true
        else
          match play.startHomeWp, play.startAwayWp with
          | some sh, some sa => decide (sh < wpThreshold) && decide (sa < wpThreshold)
          | _, _ =>
            !(match play.homeWp with
              | some h => decide (h ≥ wpThreshold)
              | none => false) &&
            !(match play.awayWp with
              | some a => decide (a ≥ wpThreshold)
              | none => false)
      if !competitive then
        { st with prevHomeScore := play.homeScore, prevAwayScore := play.awayScore }
      else
        let text := play.text
        let textLower := pyLower text
        let yards := play.yards
        let hasPenalty := strHas textLower "penalty"
        let probability :=
          match play.homeWp, play.awayWp with
          | some h, some a =>
            let d := play.wpDelta.getD 0
            some { homeWinPercentage := h, awayWinPercentage := a,
                   homeDelta := d, awayDelta := -d : RebProb }
          | _, _ => none
        let playType :=
          if play.isRun then "Run"
          else if play.isPass then "Pass"
          else if play.isTurnover then "Turnover"
          else if hasPenalty then "Penalty"
          else "Unknown"
        let mkEntry (pt : String) : RebDetail :=
          { ptype := pt, text := text, yards := yards,
            quarter := play.quarter, clock := play.clock,
            endPos := play.endPos, probability := probability }
        let st1 :=
          if play.isTurnover then
            { st with turnoverEntries :=
                st.turnoverEntries ++ [(teamId, mkEntry playType)] }
          else st
        let st2 :=
          if play.isOffensive &&
              ((play.isRun && yards ≥ 10) || (play.isPass && yards ≥ 20)) then
            { st1 with explosiveEntries :=
                st1.explosiveEntries ++
                  [(teamId, mkEntry (if play.isRun then "Run" else "Pass"))] }
          else st1
        { st2 with prevHomeScore := play.homeScore, prevAwayScore := play.awayScore }

/-- `_rebuild_expanded_details_from_cache(plays, meta, wp_threshold)`,
restricted to the Turnovers and Explosive Plays categories; the meta argument
contributes the home/away team ids and abbreviations. -/
def rebuildFromCache (homeId homeAbbr awayId awayAbbr : String)
    (wpThreshold : ℚ) (plays : List CachePlay) : RebuildState :=
  plays.foldl (rebuildStep homeId homeAbbr awayId awayAbbr wpThreshold) {}

/-- Length of a team's rebuilt Turnovers detail list. -/
def RebuildState.turnoverCount (st : RebuildState) (tid : String) : ℕ :=
  (st.turnoverEntries.filter (·.1 = tid)).length

/-- Length of a team's rebuilt Explosive Plays detail list. -/
def RebuildState.explosiveCount (st : RebuildState) (tid : String) : ℕ :=
  (st.explosiveEntries.filter (·.1 = tid)).length

/-! ### Exception-aware view of the play loop

The per-play body of `process_game_stats` dereferences, in this order and
before any skip check: `text.lower()` (line 674), `play.get('type',
{}).get('text', 'Unknown')` (679), `play.get('start', {}).get('team', {})`
(680-681), `play.get('end', {}).get('team', {})` (682), and — inside
`is_competitive_play` (689 → 328) — `play.get('period', {}).get('number',
0)`.  A missing key yields the `get` default, but a key PRESENT with value
`None` defeats the default and raises `AttributeError` at the matching point
above.  A null `id` never raises (`play.get('id')` is only compared and used
as a lookup key) and a null `penalty` never raises (`play.get('penalty') or
{}`, line 705, and the falsy checks of `is_penalty_play`): both behave like
the missing key.  A null `clock` or `statYardage` value also raises, but
only deeper in the loop (`.get('displayValue')` when a detail entry is
built; the `+=` of the yardage accumulations): such plays lie outside the
play space modelled here, which carries those keys only as absent or proper
values.  `RawField` gives the three shapes of the `text` value, `KeyShape`
the shape of the other guarded keys (their proper values live in `core`);
the exceptional run threads `Except`. -/

inductive RawField where
  | missing
  | null
  | strVal (s : String)
  deriving Repr, DecidableEq

/-- Shape of a guarded dict-valued key: absent, present-but-null, or present
with a proper value. -/
inductive KeyShape where
  | missing
  | null
  | val
  deriving Repr, DecidableEq

/-- A play object whose guarded keys may be present with null values. -/
structure RawPlay where
  textF : RawField := .missing
  typeF : KeyShape := .missing
  startF : KeyShape := .missing
  endF : KeyShape := .missing
  periodF : KeyShape := .missing
  idF : KeyShape := .missing
  penaltyF : KeyShape := .missing
  core : Play := {}
  deriving Repr, DecidableEq

/-- The total-world play a raw play denotes on its non-raising keys: a
missing key reads as absent, and the never-raising null `id` / null
`penalty` also read as absent (exactly the `get`-default / `or {}`
behaviour of the source). -/
def RawPlay.toPlayTotal (p : RawPlay) : Play :=
  { p.core with
    text := (match p.textF with | .strVal s => some s | _ => none),
    typeText := if p.typeF = .val then p.core.typeText else none,
    startTeamId := if p.startF = .val then p.core.startTeamId else none,
    startDown := if p.startF = .val then p.core.startDown else none,
    startDistance := if p.startF = .val then p.core.startDistance else none,
    endTeamId := if p.endF = .val then p.core.endTeamId else none,
    periodNumber := if p.periodF = .val then p.core.periodNumber else none,
    id := if p.idF = .val then p.core.id else none,
    penalty := if p.penaltyF = .val then p.core.penalty else none }

/-- No guarded key holds a present null value the loop would dereference. -/
def RawPlay.noNull (p : RawPlay) : Prop :=
  p.textF ≠ RawField.null ∧ p.typeF ≠ KeyShape.null ∧
  p.startF ≠ KeyShape.null ∧ p.endF ≠ KeyShape.null ∧
  p.periodF ≠ KeyShape.null

instance (p : RawPlay) : Decidable p.noNull := by
  unfold RawPlay.noNull
  infer_instance

/-- One play through the loop body with the exceptional accesses explicit,
raising in the source's access order (text 674, type 679, start 680, end
682, period 689/328); null `id` and null `penalty` fall through to the total
run like missing keys. -/
def processPlayE (ctx : ProcCtx) (teamId : String) (st : ProcState)
    (p : RawPlay) : Except String ProcState :=
  if p.textF = RawField.null then
    .error "AttributeError: NoneType object has no attribute lower"
  else if p.typeF = KeyShape.null then
    .error "AttributeError: NoneType object has no attribute get"
  else if p.startF = KeyShape.null then
    .error "AttributeError: NoneType object has no attribute get"
  else if p.endF = KeyShape.null then
    .error "AttributeError: NoneType object has no attribute get"
  else if p.periodF = KeyShape.null then
    .error "AttributeError: NoneType object has no attribute get"
  else
    .ok (processPlay ctx teamId st p.toPlayTotal)

structure RawDrive where
  teamId : Option String := none
  plays : List RawPlay := []
  deriving Repr, DecidableEq

structure RawGameData where
  teams : List (String × String) := []
  drives : List RawDrive := []
  deriving Repr, DecidableEq

def RawDrive.toDrive (d : RawDrive) : Drive :=
  { teamId := d.teamId, plays := d.plays.map RawPlay.toPlayTotal }

def RawGameData.toGameData (g : RawGameData) : GameData :=
  { teams := g.teams, drives := g.drives.map RawDrive.toDrive }

def processDriveE (ctx : ProcCtx) (st : ProcState) (d : RawDrive) :
    Except String ProcState :=
  match d.teamId with
  | none => .ok st
  | some tid =>
    if memKey st.stats tid then d.plays.foldlM (processPlayE ctx tid) st
    else .ok st

/-- `process_game_stats` with the exceptional text access made explicit. -/
def processGameStatsE (g : RawGameData) (expanded : Bool)
    (probabilityMap : ProbMap)
    (pregameProbabilities : Option (Option ℚ × Option ℚ))
    (wpThreshold : ℚ) : Except String ProcState :=
  g.drives.foldlM
    (processDriveE (procCtxOf g.toGameData expanded probabilityMap wpThreshold))
    (initStateOf g.toGameData pregameProbabilities)

/-- The all-keys-missing play object `{}`. -/
def emptyPlay : Play := {}

/-! ### A benign-play predicate for the cache round-trip

The compact cache flags (`is_turnover` from the simplified interception /
`recovered by` heuristic, raw `statYardage` for the explosive check) agree
with the full fresh-run attribution only away from the code paths where the
two pipelines deliberately differ.  `cacheBenignPlay` carves out that common
fragment: a present play id, no timeout / period marker / nullified play
(which only the fresh run skips), no fumble / muffed-kick / onside wording
(fresh-run-only turnover sources), no type-tag-only interception, no
accepted-penalty yard zeroing, and intercepted plays gaining fewer than 10
yards with the drive team in possession. -/
def cacheBenignPlay (driveTid : String) (p : Play) : Bool :=
  let tl := pyLower (p.text.getD "")
  let ptl := pyLower (p.typeText.getD "Unknown")
  (p.id.getD "" != "") &&
  !strHas ptl "timeout" && !strHas ptl "end of" &&
  !strHas ptl "interception" && !strHas ptl "muff" &&
  !strHas tl "nullified" && !strHas tl "no play" &&
  !strHas tl "fumble" && !strHas tl "muffed" && !strHas tl "onside" &&
  !strHas tl "intentional grounding" &&
  p.penalty == none &&
  (!strHas tl "intercept" ||
    (decide (p.statYardage.getD 0 < 10) &&
     (match p.startTeamId with
      | none => true
      | some s => s == "" || s == driveTid)))

/-! ### Concrete game inputs used by the counterexamples and witnesses -/

def teamsAB : List (String × String) := [("1", "AAA"), ("2", "BBB")]

/-- Scenario B of the spec: an interception returned and fumbled back. -/
def scenarioBText : String :=
  "J.Quarterback pass deep right INTERCEPTED by D.Back at the AAA 40. D.Back return for 12 yards, FUMBLES, RECOVERED by AAA at the AAA 28."

def scenarioBPlay : Play :=
  { id := some "1", text := some scenarioBText,
    typeText := some "Interception Return",
    startTeamId := some "1", endTeamId := some "1",
    teamAbbreviation := some "AAA" }

def scenarioBGame : GameData :=
  { teams := teamsAB, drives := [{ teamId := some "1", plays := [scenarioBPlay] }] }

/-- A play whose pre-reversal ruling is an interception and whose restated
final ruling is a completion that ends in a lost fumble. -/
def reversalFumbleText : String :=
  "QB pass INTERCEPTED by B.Defender at the BBB 40. The play was REVERSED. QB pass complete to W.Receiver. W.Receiver FUMBLES, RECOVERED by BBB at the BBB 35."

def reversalFumblePlay : Play :=
  { id := some "1", text := some reversalFumbleText,
    typeText := some "Pass Reception",
    startTeamId := some "1", endTeamId := some "2",
    teamAbbreviation := some "AAA" }

def reversalFumbleGame : GameData :=
  { teams := teamsAB,
    drives := [{ teamId := some "1", plays := [reversalFumblePlay] }] }

/-- A fumble recovered by "LA" in a game whose box-score abbreviations are
LAR and SEA: the `nfl_core` alias table has no entry for LA. -/
def laRecoveryText : String :=
  "C.Runner up the middle for 3 yards, FUMBLES, recovered by la at the SEA 45."

def laRecoveryPlay : Play :=
  { id := some "1", text := some laRecoveryText, typeText := some "Rush",
    startTeamId := some "10", endTeamId := some "20",
    teamAbbreviation := some "LAR" }

def laRecoveryGame : GameData :=
  { teams := [("10", "LAR"), ("20", "SEA")],
    drives := [{ teamId := some "10", plays := [laRecoveryPlay] }] }

/-- A muffed punt recovered by the kicking team: a fresh-run turnover the
compact cache flags never record. -/
def muffedPuntText : String :=
  "P.Punter punts 45 yards to BBB 20, muffed punt by R.Returner, RECOVERED by AAA at the BBB 18."

def muffedPuntPlay : Play :=
  { id := some "1", text := some muffedPuntText, typeText := some "Punt",
    startTeamId := some "1", endTeamId := some "1",
    teamAbbreviation := some "AAA" }

def muffedPuntGame : GameData :=
  { teams := teamsAB, drives := [{ teamId := some "1", plays := [muffedPuntPlay] }] }

/-- A probability map whose entry carries out-of-range values. -/
def outOfRangeProbMap : ProbMap :=
  [("p1", { homeWinPercentage := some (3 / 2), awayWinPercentage := some (-1 / 4) })]

def outOfRangePlay : Play :=
  { id := some "p1", text := some "K.Runner up the middle for 2 yards." }

def outOfRangeGame : GameData :=
  { teams := teamsAB, drives := [{ teamId := some "1", plays := [outOfRangePlay] }] }

/-- A reversed interception whose restated ruling is a plain sack. -/
def sackReversalPlay : Play :=
  { id := some "1",
    text := some "QB pass INTERCEPTED by D.Back. The play was REVERSED. QB sacked for -7 yards.",
    typeText := some "Sack",
    startTeamId := some "1", endTeamId := some "1",
    teamAbbreviation := some "AAA" }

def teamsWshDal : List (String × String) := [("5", "WSH"), ("6", "DAL")]

/-- Turnover-block input for a WSH fumble recovered by "was" (the alias the
`nfl_core` table does map) — resolution lands on WSH itself. -/
def wasAliasInput : TOInput :=
  { eventTextLower := pyLower
      "Q.Back FUMBLES, recovered by was at the DAL 45. Additional yards.",
    playTypeLower := "rush",
    hasReplayReversal := false,
    startTeamId := "5", explicitStartTeamId := some "5",
    endTeamId := some "5", offenseAbbrev := "wsh",
    opponentId := some "6", teamId := "5" }

/-- Turnover-block input for a WSH fumble recovered by DAL. -/
def dalRecoveryInput : TOInput :=
  { eventTextLower := pyLower
      "Q.Back FUMBLES, recovered by dal at the DAL 45.",
    playTypeLower := "rush",
    hasReplayReversal := false,
    startTeamId := "5", explicitStartTeamId := some "5",
    endTeamId := some "6", offenseAbbrev := "wsh",
    opponentId := some "6", teamId := "5" }

/-- A game whose single drive contains a play with `text: null`. -/
def nullTextGame : RawGameData :=
  { teams := teamsAB,
    drives :=
      [{ teamId := some "1",
         plays :=
           [{ textF := .strVal "QB pass complete for 7 yards.",
              typeF := .val, idF := .val,
              core := { id := some "a", typeText := some "Pass",
                        statYardage := some 7 } },
            { textF := .null, typeF := .val, idF := .val,
              core := { id := some "b", typeText := some "Pass" } }] }] }

/-- The per-play interception-turnover contribution both pipelines realise on
the benign fragment: not a two-point conversion and an `intercept` mention in
the resolved text (derived common form, proved against both sides). -/
def benignTO (p : Play) : Bool :=
  !twoPointText (pyLower (final_play_text (p.text.getD ""))) &&
    strHas (pyLower (final_play_text (p.text.getD ""))) "intercept"

/-- The per-play explosive contribution both pipelines realise on the benign
fragment: an offensive run of 10+ raw yards or pass of 20+ raw yards. -/
def benignExplosive (p : Play) : Bool :=
  (classify_offense_play p).1 &&
    (((classify_offense_play p).2.1 && decide (p.statYardage.getD 0 ≥ 10)) ||
     ((classify_offense_play p).2.2 && decide (p.statYardage.getD 0 ≥ 20)))

/-- Pointwise relation between a visited play and its cached snapshot entry
on the benign fragment (no probability data, pregame `0.5 / 0.5`): the fields
`_rebuild_expanded_details_from_cache` reads take these values. -/
def cacheEntryMatches (idToAbbr : List (String × String))
    (tp : String × Play) (e : CachePlay) : Prop :=
  e.driveTeam = (lookupStr idToAbbr tp.1).getD "" ∧
  e.startHomeWp = some (1 / 2) ∧ e.startAwayWp = some (1 / 2) ∧
  e.isTurnover = benignTO tp.2 ∧
  e.isOffensive = (classify_offense_play tp.2).1 ∧
  e.isRun = (classify_offense_play tp.2).2.1 ∧
  e.isPass = (classify_offense_play tp.2).2.2 ∧
  e.yards = tp.2.statYardage.getD 0

/-- A 25-yard completed pass: a benign explosive play. -/
def benignPassPlay : Play :=
  { id := some "p1",
    text := some
      "J.Quarterback pass deep left complete to T.Receiver for 25 yards.",
    typeText := some "Pass Reception", statYardage := some 25,
    startTeamId := some "1", endTeamId := some "1",
    teamAbbreviation := some "AAA" }

/-- A clean interception for no return yards: a benign turnover play. -/
def benignIntPlay : Play :=
  { id := some "p2",
    text := some
      "J.Quarterback pass intended for T.Receiver is intercepted by D.Back.",
    typeText := some "Pass", statYardage := some 0,
    startTeamId := some "1", endTeamId := some "2",
    teamAbbreviation := some "AAA" }

/-- A one-drive game on the benign fragment. -/
def benignGame : GameData :=
  { teams := teamsAB,
    drives := [{ teamId := some "1",
                 plays := [benignPassPlay, benignIntPlay] }] }

/-- A one-drive raw game whose single play object has every key missing. -/
def missingKeysGame : RawGameData :=
  { teams := teamsAB,
    drives := [{ teamId := some "1",
                 plays := [{ textF := .missing, core := {} }] }] }

/-! ## Supporting lemmas -/

theorem updStats_cons (k1 : String) (v1 : TeamAcc) (rest : StatsMap)
    (tid : String) (f : TeamAcc → TeamAcc) :
    updStats ((k1, v1) :: rest) tid f =
      (if k1 = tid then (k1, f v1) else (k1, v1)) :: updStats rest tid f := rfl

theorem lookupStr_cons {α : Type} (k1 : String) (v1 : α)
    (rest : List (String × α)) (k : String) :
    lookupStr ((k1, v1) :: rest) k =
      if k1 = k then some v1 else lookupStr rest k := rfl

theorem lookupStr_updStats (m : StatsMap) (tid k : String) (f : TeamAcc → TeamAcc) :
    lookupStr (updStats m tid f) k =
      if k = tid then (lookupStr m k).map f else lookupStr m k := by
  induction m with
  | nil => by_cases h : k = tid <;> simp [updStats, lookupStr, h]
  | cons kv rest ih =>
    obtain ⟨k1, v1⟩ := kv
    rw [updStats_cons]
    by_cases h1 : k1 = tid
    · rw [if_pos h1]
      by_cases h2 : k1 = k
      · subst h2
        rw [lookupStr_cons, lookupStr_cons, if_pos rfl, if_pos rfl, if_pos h1]
        rfl
      · have h2x : ¬ k = tid := fun h => h2 (h1.symm ▸ h.symm)
        rw [lookupStr_cons, lookupStr_cons, if_neg h2, if_neg h2, ih,
          if_neg h2x]
    · rw [if_neg h1]
      by_cases h2 : k1 = k
      · subst h2
        have h2x : ¬ k1 = tid := h1
        rw [lookupStr_cons, lookupStr_cons, if_pos rfl, if_pos rfl, if_neg h2x]
      · rw [lookupStr_cons, lookupStr_cons, if_neg h2, if_neg h2, ih]

theorem memKey_updStats (m : StatsMap) (tid k : String) (f : TeamAcc → TeamAcc) :
    memKey (updStats m tid f) k = memKey m k := by
  induction m with
  | nil => simp [updStats, memKey]
  | cons kv rest ih =>
    by_cases h1 : kv.1 = tid <;>
      simp_all [updStats, memKey, List.any_cons]

theorem updatePrevWp_stats (m : ProbMap) (p : Play) (st : ProcState) :
    (updatePrevWp m p st).stats = st.stats := by
  cases hid : p.id with
  | none => simp [updatePrevWp, hid]
  | some pid => cases hl : probLookup m pid <;> simp [updatePrevWp, hid, hl]

theorem offensiveSection_preserves_turnovers (e : Bool) (p : Play)
    (tid tl et tx : String) (sn : Option ProbSnapshot) (tr : TOResult)
    (stats : StatsMap) (k : String) :
    ((lookupStr (offensiveSection e p tid tl et tx sn tr stats) k).getD
        {}).turnovers = ((lookupStr stats k).getD {}).turnovers ∧
    ((lookupStr (offensiveSection e p tid tl et tx sn tr stats) k).getD
        {}).turnoverDetails = ((lookupStr stats k).getD {}).turnoverDetails := by
  simp only [offensiveSection]
  split
  · rw [lookupStr_updStats]
    by_cases hk : k = tid
    · rw [if_pos hk]
      cases lookupStr stats k <;> simp
    · rw [if_neg hk]
      exact ⟨rfl, rfl⟩
  · exact ⟨rfl, rfl⟩

theorem memKey_recordTurnoverEvent (e : Bool) (p : Play) (pt tx : String)
    (sn : Option ProbSnapshot) (stats : StatsMap) (ev : String × String)
    (k : String) :
    memKey (recordTurnoverEvent e p pt tx sn stats ev) k = memKey stats k := by
  unfold recordTurnoverEvent
  split
  · exact memKey_updStats ..
  · rfl

theorem turnovers_recordTurnoverEvent (e : Bool) (p : Play) (pt tx : String)
    (sn : Option ProbSnapshot) (stats : StatsMap) (ev : String × String)
    (k : String) (hk : memKey stats k = true) :
    ((lookupStr (recordTurnoverEvent e p pt tx sn stats ev) k).getD
        {}).turnovers =
      ((lookupStr stats k).getD {}).turnovers + (if ev.1 = k then 1 else 0) := by
  unfold recordTurnoverEvent
  by_cases hev : ev.1 = k
  · subst hev
    rw [if_pos hk, lookupStr_updStats, if_pos rfl]
    have : ∃ v, lookupStr stats ev.1 = some v := by
      induction stats with
      | nil => simp [memKey] at hk
      | cons kv rest ih =>
        by_cases h : kv.1 = ev.1
        · exact ⟨kv.2, by rw [lookupStr_cons, if_pos h]⟩
        · have : memKey rest ev.1 = true := by
            simpa [memKey, List.any_cons, h] using hk
          obtain ⟨v, hv⟩ := ih this
          exact ⟨v, by rw [lookupStr_cons, if_neg h, hv]⟩
    obtain ⟨v, hv⟩ := this
    rw [hv]
    simp
  · rw [if_neg hev]
    split
    · rw [lookupStr_updStats, if_neg (fun h => hev (h.symm))]
      simp
    · simp

theorem turnovers_applyTurnoverEvents (e : Bool) (p : Play) (pt tx : String)
    (sn : Option ProbSnapshot) (evs : List (String × String))
    (stats : StatsMap) (k : String) (hk : memKey stats k = true) :
    ((lookupStr (applyTurnoverEvents e p pt tx sn evs stats) k).getD
        {}).turnovers =
      ((lookupStr stats k).getD {}).turnovers +
        (evs.filter (fun ev => ev.1 = k)).length := by
  induction evs generalizing stats with
  | nil => simp [applyTurnoverEvents]
  | cons ev rest ih =>
    have hstep : applyTurnoverEvents e p pt tx sn (ev :: rest) stats =
        applyTurnoverEvents e p pt tx sn rest
          (recordTurnoverEvent e p pt tx sn stats ev) := rfl
    rw [hstep, ih _ (by rw [memKey_recordTurnoverEvent]; exact hk),
      turnovers_recordTurnoverEvent e p pt tx sn stats ev k hk]
    by_cases hev : ev.1 = k
    all_goals simp [List.filter_cons, hev]
    all_goals omega

theorem details_recordTurnoverEvent (e : Bool) (p : Play) (pt tx : String)
    (sn : Option ProbSnapshot) (stats : StatsMap) (ev : String × String)
    (k : String) :
    ∃ extra, ((lookupStr (recordTurnoverEvent e p pt tx sn stats ev) k).getD
        {}).turnoverDetails =
      ((lookupStr stats k).getD {}).turnoverDetails ++ extra ∧
      ∀ d ∈ extra, d.reason = ev.2 := by
  unfold recordTurnoverEvent
  split
  · rw [lookupStr_updStats]
    by_cases hk : k = ev.1
    · rw [if_pos hk]
      cases lookupStr stats k with
      | none => exact ⟨[], by simp⟩
      | some v =>
        by_cases he : e = true
        · refine ⟨[TurnoverDetail.mk pt tx (p.statYardage.getD 0)
            p.periodNumber p.clockDisplay sn ev.2], by simp [he], ?_⟩
          intro d hd
          simp only [List.mem_singleton] at hd
          rw [hd]
        · exact ⟨[], by simp [he]⟩
    · rw [if_neg hk]
      exact ⟨[], by simp⟩
  · exact ⟨[], by simp⟩

theorem details_applyTurnoverEvents (e : Bool) (p : Play) (pt tx : String)
    (sn : Option ProbSnapshot) (evs : List (String × String))
    (stats : StatsMap) (k : String) :
    ∃ extra, ((lookupStr (applyTurnoverEvents e p pt tx sn evs stats) k).getD
        {}).turnoverDetails =
      ((lookupStr stats k).getD {}).turnoverDetails ++ extra ∧
      ∀ d ∈ extra, d.reason ∈ evs.map (·.2) := by
  induction evs generalizing stats with
  | nil => exact ⟨[], by simp [applyTurnoverEvents], by simp⟩
  | cons ev rest ih =>
    have hstep : applyTurnoverEvents e p pt tx sn (ev :: rest) stats =
        applyTurnoverEvents e p pt tx sn rest
          (recordTurnoverEvent e p pt tx sn stats ev) := rfl
    obtain ⟨x1, hx1, hr1⟩ := details_recordTurnoverEvent e p pt tx sn stats ev k
    obtain ⟨x2, hx2, hr2⟩ := ih (recordTurnoverEvent e p pt tx sn stats ev)
    refine ⟨x1 ++ x2, ?_, ?_⟩
    · rw [hstep, hx2, hx1, List.append_assoc]
    · intro d hd
      rcases List.mem_append.mp hd with h | h
      · simp [hr1 d h]
      · simp only [List.map_cons, List.mem_cons]
        exact Or.inr (hr2 d h)

theorem prefEq_trans (n1 n2 l : List Char) (h1 : prefEq n1 n2 = true)
    (h2 : prefEq n2 l = true) : prefEq n1 l = true := by
  induction n1 generalizing n2 l with
  | nil => rfl
  | cons a as ih =>
    cases n2 with
    | nil => simp [prefEq] at h1
    | cons b bs =>
      cases l with
      | nil => simp [prefEq] at h2
      | cons c cs =>
        simp only [prefEq, Bool.and_eq_true, decide_eq_true_eq] at h1 h2 ⊢
        exact ⟨h1.1.trans h2.1, ih bs cs h1.2 h2.2⟩

theorem occursIn_mono_needle (n1 n2 l : List Char) (hp : prefEq n1 n2 = true)
    (h : occursIn n2 l = true) : occursIn n1 l = true := by
  induction l with
  | nil =>
    simp only [occursIn, List.isEmpty_iff] at h ⊢
    subst h
    cases n1 with
    | nil => rfl
    | cons a as => simp [prefEq] at hp
  | cons c rest ih =>
    simp only [occursIn, Bool.or_eq_true] at h ⊢
    rcases h with h | h
    · exact Or.inl (prefEq_trans n1 n2 (c :: rest) hp h)
    · exact Or.inr (ih h)

theorem occursIn_cons (n : List Char) (c : Char) (l : List Char)
    (h : occursIn n l = true) : occursIn n (c :: l) = true := by
  simp [occursIn, h]

theorem occursIn_append (n pre l : List Char) (h : occursIn n l = true) :
    occursIn n (pre ++ l) = true := by
  induction pre with
  | nil => exact h
  | cons c cs ih => exact occursIn_cons n c (cs ++ l) ih

theorem occursIn_suffix (n s t : List Char) (hs : s <:+ t)
    (h : occursIn n s = true) : occursIn n t = true := by
  obtain ⟨pre, hpre⟩ := hs
  exact hpre ▸ occursIn_append n pre s h

theorem dropKw_spec (kw l r : List Char) (h : dropKw kw l = some r) :
    r <:+ l ∧ r.length + kw.length = l.length := by
  induction kw generalizing l with
  | nil =>
    simp only [dropKw] at h
    cases h
    exact ⟨List.suffix_refl r, by simp⟩
  | cons k ks ih =>
    cases l with
    | nil => simp [dropKw] at h
    | cons c cs =>
      simp only [dropKw] at h
      by_cases hc : pyLowerChar c = k
      · rw [if_pos hc] at h
        obtain ⟨hsuf, hlen⟩ := ih cs h
        exact ⟨hsuf.trans (List.suffix_cons c cs), by
          simp only [List.length_cons]
          omega⟩
      · rw [if_neg hc] at h
        cases h

theorem eatSpaces_spec (l : List Char) :
    eatSpaces l <:+ l ∧ (eatSpaces l).length ≤ l.length := by
  induction l with
  | nil => exact ⟨List.suffix_refl [], le_refl 0⟩
  | cons c cs ih =>
    by_cases hc : isPySpace c = true
    · refine ⟨?_, ?_⟩
      · simpa [eatSpaces, hc] using ih.1.trans (List.suffix_cons c cs)
      · simp only [eatSpaces, hc, if_true, List.length_cons]
        omega
    · simp [eatSpaces, hc]

theorem lstripPy_spec (l : List Char) :
    lstripPy l <:+ l ∧ (lstripPy l).length ≤ l.length := by
  induction l with
  | nil => exact ⟨List.suffix_refl [], le_refl 0⟩
  | cons c cs ih =>
    by_cases hc : isPySpace c = true
    · refine ⟨?_, ?_⟩
      · simpa [lstripPy, hc] using ih.1.trans (List.suffix_cons c cs)
      · simp only [lstripPy, hc, if_true, List.length_cons]
        omega
    · simp [lstripPy, hc]

theorem dropKw_lt (kw l r : List Char) (hkw : kw ≠ [])
    (h : dropKw kw l = some r) : r.length < l.length := by
  obtain ⟨_, hlen⟩ := dropKw_spec kw l r h
  have : 0 < kw.length := List.length_pos.mpr hkw
  omega

theorem replayMatchAt_nil (prev : Option Char) :
    replayMatchAt prev [] = none := by
  unfold replayMatchAt
  split <;> rfl

theorem replayMatchAt_spec (prev : Option Char) (l r : List Char)
    (h : replayMatchAt prev l = some r) : r <:+ l ∧ r.length < l.length := by
  unfold replayMatchAt at h
  split at h
  · cases h
  · set kwRest := (match dropKw "reversed".data l with
      | some r => some r
      | none => dropKw "overturned".data l) with hkw
    have hrest : ∀ rest, kwRest = some rest →
        rest <:+ l ∧ rest.length < l.length := by
      intro rest hr
      rw [hkw] at hr
      rcases hd : dropKw "reversed".data l with _ | v
      · rw [hd] at hr
        simp only [hd] at hr
        obtain ⟨hs, _⟩ := dropKw_spec _ _ _ hr
        exact ⟨hs, dropKw_lt _ _ _ (by decide) hr⟩
      · rw [hd] at hr
        simp only at hr
        cases hr
        obtain ⟨hs, _⟩ := dropKw_spec _ _ _ hd
        exact ⟨hs, dropKw_lt _ _ _ (by decide) hd⟩
    rcases hk : kwRest with _ | rest
    · rw [hk] at h
      cases h
    · rw [hk] at h
      obtain ⟨hs, hl⟩ := hrest rest hk
      cases rest with
      | nil =>
        simp only at h
        cases h
        exact ⟨⟨l, by simp⟩, hl⟩
      | cons c cs =>
        simp only at h
        split at h
        · cases h
        · split at h
          · cases h
            have he := eatSpaces_spec cs
            refine ⟨he.1.trans ((List.suffix_cons c cs).trans hs), ?_⟩
            have hcs : cs.length < (c :: cs).length := by simp
            have : (c :: cs).length ≤ l.length := List.IsSuffix.length_le hs
            have := he.2
            omega
          · cases h
            have he := eatSpaces_spec (c :: cs)
            exact ⟨he.1.trans hs, lt_of_le_of_lt he.2 hl⟩

theorem lastReplayRemainder_spec (prev : Option Char) (l : List Char)
    (acc : Option (List Char)) (r : List Char)
    (h : lastReplayRemainder prev l acc = some r) :
    acc = some r ∨ (r <:+ l ∧ r.length < l.length) := by
  induction l generalizing prev acc with
  | nil =>
    left
    simp only [lastReplayRemainder, replayMatchAt_nil] at h
    exact h
  | cons c rest ih =>
    simp only [lastReplayRemainder] at h
    rcases ih (some c) _ h with hacc | ⟨hs, hl⟩
    · rcases hma : replayMatchAt prev (c :: rest) with _ | x
      · rw [hma] at hacc
        exact Or.inl hacc
      · rw [hma] at hacc
        cases hacc
        exact Or.inr (replayMatchAt_spec prev _ _ hma)
    · exact Or.inr ⟨hs.trans (List.suffix_cons c rest), by
        simp only [List.length_cons]
        omega⟩

theorem final_play_text_of_marker (t : String) (rem : List Char)
    (hm : lastReplayRemainder none t.data none = some rem)
    (hne : lstripPy rem ≠ []) :
    final_play_text t = String.mk (lstripPy rem) ∧ final_play_text t ≠ t := by
  have hrem : rem <:+ t.data ∧ rem.length < t.data.length := by
    rcases lastReplayRemainder_spec none t.data none rem hm with hc | h
    · cases hc
    · exact h
  have ht : t ≠ "" := by
    intro he
    subst he
    have hd : ("" : String).data = [] := rfl
    rw [hd] at hm
    simp only [lastReplayRemainder, replayMatchAt_nil] at hm
    exact Option.noConfusion hm
  constructor
  · unfold final_play_text
    rw [if_neg ht, hm]
    simp only
    rw [if_neg (by simpa [List.isEmpty_iff] using hne)]
  · unfold final_play_text
    rw [if_neg ht, hm]
    simp only
    rw [if_neg (by simpa [List.isEmpty_iff] using hne)]
    intro he
    have hdata : lstripPy rem = t.data := congrArg String.data he
    have h1 := (lstripPy_spec rem).2
    have h2 := hrem.2
    rw [hdata] at h1
    omega

/-- `final_play_text` always returns `''`, the whole text, or a suffix of
it — so any keyword absent from the lower-cased raw text is also absent from
the lower-cased event text. -/
theorem final_play_text_suffix (t : String) :
    (final_play_text t).data <:+ t.data := by
  unfold final_play_text
  by_cases ht : t = ""
  · rw [if_pos ht]
    subst ht
    exact List.suffix_refl _
  · rw [if_neg ht]
    rcases hm : lastReplayRemainder none t.data none with _ | rem
    · exact List.suffix_refl _
    · simp only
      split
      · exact List.suffix_refl _
      · have hrem : rem <:+ t.data := by
          rcases lastReplayRemainder_spec none t.data none rem hm with hc | h
          · cases hc
          · exact h.1
        exact (lstripPy_spec rem).1.trans hrem

theorem strHas_of_event_text (t needle : String)
    (h : strHas (pyLower (final_play_text t)) needle = true) :
    strHas (pyLower t) needle = true := by
  have hsuf : (pyLower (final_play_text t)).data <:+ (pyLower t).data := by
    obtain ⟨pre, hpre⟩ := final_play_text_suffix t
    refine ⟨pre.map pyLowerChar, ?_⟩
    have : (pyLower t).data = t.data.map pyLowerChar := rfl
    rw [this, ← hpre, List.map_append]
    rfl
  exact occursIn_suffix needle.data _ _ hsuf h

/-! ## Claim theorems -/

/-- C6: for every down in `{1,2,3,4}` and every distance `> 0`,
`calculate_success` returns true iff the gained yards reach 40% of the
distance on down 1, 60% on down 2, and the full distance on downs 3 and 4;
it returns false for any other down; and it takes the five specified
concrete values. -/
theorem C6_calculate_success_law (down : ℤ) (distance yards : ℚ)
    (_hd : 0 < distance) :
    (calculate_success 1 distance yards = true ↔ (4 / 10 : ℚ) * distance ≤ yards) ∧
    (calculate_success 2 distance yards = true ↔ (6 / 10 : ℚ) * distance ≤ yards) ∧
    ((down = 3 ∨ down = 4) →
      (calculate_success down distance yards = true ↔ distance ≤ yards)) ∧
    (down ≠ 1 → down ≠ 2 → down ≠ 3 → down ≠ 4 →
      calculate_success down distance yards = false) ∧
    calculate_success 1 10 4 = true ∧
    calculate_success 1 10 (39 / 10) = false ∧
    calculate_success 2 10 6 = true ∧
    calculate_success 3 5 5 = true ∧
    calculate_success 4 1 (9 / 10) = false := by
  refine ⟨?_, ?_, ?_, ?_, by norm_num [calculate_success],
    by norm_num [calculate_success], by norm_num [calculate_success],
    by norm_num [calculate_success], by norm_num [calculate_success]⟩
  · simp [calculate_success, ge_iff_le]
  · norm_num [calculate_success, ge_iff_le]
  · rintro (rfl | rfl) <;> norm_num [calculate_success, ge_iff_le]
  · intro h1 h2 h3 h4
    simp [calculate_success, h1, h2, h3, h4]

/-- Witness for C6 at `down = 3, distance = 5, yards = 5`. -/
theorem C6_calculate_success_law_witness :
    calculate_success 3 5 5 = true :=
  ((C6_calculate_success_law 3 5 5 (by norm_num)).2.2.1 (Or.inl rfl)).mpr
    (by norm_num)

/-- C10: `final_play_text` returns `''` on empty (or missing, which the
caller's `get` default turns into empty) input, returns the text unchanged
when no replay marker matches, returns the ORIGINAL full text when the
remainder after the last marker strips to nothing, and otherwise returns the
stripped remainder after the last marker. -/
theorem C10_final_play_text_cases (t : String) :
    final_play_text "" = "" ∧
    (lastReplayRemainder none t.data none = none → final_play_text t = t) ∧
    (∀ rem, lastReplayRemainder none t.data none = some rem →
      lstripPy rem = [] → final_play_text t = t) ∧
    (∀ rem, lastReplayRemainder none t.data none = some rem →
      lstripPy rem ≠ [] →
      final_play_text t = String.mk (lstripPy rem) ∧ final_play_text t ≠ t) := by
  refine ⟨rfl, ?_, ?_, ?_⟩
  · intro h
    unfold final_play_text
    by_cases ht : t = ""
    · rw [if_pos ht, ht]
    · rw [if_neg ht, h]
  · intro rem hm hempty
    have ht : t ≠ "" := by
      intro he
      subst he
      have hd : ("" : String).data = [] := rfl
      rw [hd] at hm
      simp only [lastReplayRemainder, replayMatchAt_nil] at hm
      exact Option.noConfusion hm
    unfold final_play_text
    rw [if_neg ht, hm]
    simp only
    rw [if_pos (by simp [List.isEmpty_iff, hempty])]
  · intro rem hm hne
    exact final_play_text_of_marker t rem hm hne

/-- Witness for C10: a text ending in the marker falls back to the original,
and a marker-free text is returned unchanged. -/
theorem C10_final_play_text_cases_witness :
    final_play_text "play was REVERSED." = "play was REVERSED." ∧
    final_play_text "run for 5 yards" = "run for 5 yards" :=
  ⟨(C10_final_play_text_cases "play was REVERSED.").2.2.1 [] (by rfl) (by rfl),
   (C10_final_play_text_cases "run for 5 yards").2.1 (by rfl)⟩

/-- C1: `is_competitive_play` is true unconditionally for period ≥ 5; true
when neither a start-of-play nor an end-of-play probability is determinable;
and when both boundaries are determinable (and the play is not in overtime),
true iff `max(home_wp, away_wp) < threshold` at the start OR at the end of
the play. -/
theorem C1_is_competitive_semantics (p : Play) (m : ProbMap) (t : ℚ)
    (sh sa : Option ℚ) :
    (5 ≤ p.periodNumber.getD 0 → is_competitive_play p m t sh sa = true) ∧
    ((sh = none ∨ sa = none) → p.id.bind (probLookup m) = none →
      is_competitive_play p m t sh sa = true) ∧
    (∀ shq saq pid e, sh = some shq → sa = some saq → p.id = some pid →
      probLookup m pid = some e → p.periodNumber.getD 0 < 5 →
      (is_competitive_play p m t sh sa = true ↔
        (max shq saq < t ∨
         max (e.homeWinPercentage.getD (1 / 2))
             (e.awayWinPercentage.getD (1 / 2)) < t))) := by
  refine ⟨?_, ?_, ?_⟩
  · intro h
    unfold is_competitive_play
    rw [if_pos h]
  · intro hstart hend
    unfold is_competitive_play
    by_cases hper : 5 ≤ p.periodNumber.getD 0
    · rw [if_pos hper]
    · rw [if_neg hper]
      cases hid : p.id with
      | none =>
        rcases hstart with h | h <;> simp [h]
      | some pid =>
        rw [hid] at hend
        simp only [Option.some_bind] at hend
        rcases hstart with h | h <;> simp [h, hend]
  · intro shq saq pid e hsh hsa hpid he hper
    unfold is_competitive_play
    rw [if_neg (not_le.mpr hper), hsh, hsa, hpid]
    simp [isCompetFromProbs, he]

/-- Witness for C1: overtime, no data at all, and a both-boundaries play. -/
theorem C1_is_competitive_semantics_witness :
    is_competitive_play { periodNumber := some 5 } [] (975 / 1000) none none = true ∧
    is_competitive_play {} [] (975 / 1000) none none = true ∧
    is_competitive_play { id := some "1", periodNumber := some 4 }
      [("1", { homeWinPercentage := some (99 / 100),
               awayWinPercentage := some (1 / 100) })]
      (975 / 1000) (some (1 / 2)) (some (1 / 2)) = true :=
  ⟨(C1_is_competitive_semantics { periodNumber := some 5 } [] (975 / 1000)
      none none).1 (by norm_num),
   (C1_is_competitive_semantics {} [] (975 / 1000) none none).2.1
      (Or.inl rfl) rfl,
   ((C1_is_competitive_semantics { id := some "1", periodNumber := some 4 }
      [("1", { homeWinPercentage := some (99 / 100),
               awayWinPercentage := some (1 / 100) })]
      (975 / 1000) (some (1 / 2)) (some (1 / 2))).2.2 (1 / 2) (1 / 2) "1" _
      rfl rfl rfl rfl (by norm_num)).mpr
      (Or.inl (by rw [max_self]; norm_num))⟩

theorem applyTurnoverEvents_nil (e : Bool) (p : Play) (pt tx : String)
    (sn : Option ProbSnapshot) (stats : StatsMap) :
    applyTurnoverEvents e p pt tx sn [] stats = stats := rfl

/-- `processPlay` either only advances the tracker (the three skip branches)
or runs the turnover block and the offensive block before advancing it. -/
theorem processPlay_cases (ctx : ProcCtx) (teamId : String) (st : ProcState)
    (p : Play) :
    processPlay ctx teamId st p = updatePrevWp ctx.probabilityMap p st ∨
    processPlay ctx teamId st p =
      updatePrevWp ctx.probabilityMap p
        { st with stats :=
            (offensiveSection ctx.expanded p teamId
              (pyLower (p.text.getD "")) (final_play_text (p.text.getD ""))
              (p.text.getD "")
              (lookupProbabilityWithDelta ctx.probabilityMap st.prevHomeWp
                st.prevAwayWp p)
              (computeTurnover ctx.idToAbbr ctx.abbrToId (toInputOf ctx teamId p))
              (applyTurnoverEvents ctx.expanded p (p.typeText.getD "Unknown")
                (p.text.getD "")
                (lookupProbabilityWithDelta ctx.probabilityMap st.prevHomeWp
                  st.prevAwayWp p)
                (computeTurnover ctx.idToAbbr ctx.abbrToId
                  (toInputOf ctx teamId p)).events st.stats)) } := by
  simp only [processPlay]
  split
  · exact Or.inl rfl
  · split
    · exact Or.inl rfl
    · split
      · exact Or.inl rfl
      · exact Or.inr rfl

/-- C3: for every play whose resolved (post-reversal) text marks a two-point
conversion attempt, `process_game_stats` emits no turnover event: no team's
Turnovers counter changes and no Turnovers detail entry is appended,
regardless of intercept/fumble keywords in the text. -/
theorem C3_two_point_no_turnover (ctx : ProcCtx) (teamId : String)
    (st : ProcState) (p : Play)
    (h : twoPointText (pyLower (final_play_text (p.text.getD ""))) = true) :
    ∀ k, (processPlay ctx teamId st p).turnoversOf k = st.turnoversOf k ∧
      (processPlay ctx teamId st p).turnoverDetailsOf k =
        st.turnoverDetailsOf k := by
  intro k
  have hev : (computeTurnover ctx.idToAbbr ctx.abbrToId
      (toInputOf ctx teamId p)).events = [] := by
    have h2 : twoPointText (toInputOf ctx teamId p).eventTextLower = true := h
    simp [computeTurnover, h2]
  rcases processPlay_cases ctx teamId st p with hc | hc
  · rw [hc]
    constructor <;>
      simp [ProcState.turnoversOf, ProcState.turnoverDetailsOf, updatePrevWp_stats]
  · rw [hc, hev, applyTurnoverEvents_nil]
    have hoff := offensiveSection_preserves_turnovers ctx.expanded p teamId
      (pyLower (p.text.getD "")) (final_play_text (p.text.getD ""))
      (p.text.getD "")
      (lookupProbabilityWithDelta ctx.probabilityMap st.prevHomeWp
        st.prevAwayWp p)
      (computeTurnover ctx.idToAbbr ctx.abbrToId (toInputOf ctx teamId p))
      st.stats k
    constructor
    · simp only [ProcState.turnoversOf, updatePrevWp_stats]
      exact hoff.1
    · simp only [ProcState.turnoverDetailsOf, updatePrevWp_stats]
      exact hoff.2

/-- Witness for C3: the two-point conversion interception play. -/
theorem C3_two_point_no_turnover_witness :
    twoPointText (pyLower (final_play_text
      "T.Shough pass is intercepted. TWO-POINT CONVERSION ATTEMPT." )) = true ∧
    (processPlay (procCtxOf { teams := teamsAB, drives := [] } true [] (975 / 1000))
        "1" (initStateOf { teams := teamsAB, drives := [] } none)
        { text := some "T.Shough pass is intercepted. TWO-POINT CONVERSION ATTEMPT.",
          typeText := some "Pass", startTeamId := some "1",
          endTeamId := some "2" }).turnoversOf "1" =
      (initStateOf { teams := teamsAB, drives := [] } none).turnoversOf "1" := by
  constructor
  · rfl
  · exact (C3_two_point_no_turnover _ _ _ _ (by rfl) "1").1

theorem append_ite {α : Type} (c : Bool) (l : List α) (x : α) :
    (if c then l ++ [x] else l) = l ++ (if c then [x] else []) := by
  cases c <;> simp

theorem strHas_interception_false (s : String)
    (h : strHas s "intercept" = false) : strHas s "interception" = false := by
  by_contra hc
  have h1 : strHas s "interception" = true := by
    cases hx : strHas s "interception"
    · exact absurd hx hc
    · rfl
  have := occursIn_mono_needle "intercept".data "interception".data s.data
    (by decide) h1
  rw [strHas] at h
  rw [this] at h
  cases h

/-- With the replay-reversal override active and no interception wording in
the resolved text, the `interception` flag is off. -/
theorem interceptionOf_suppressed (etl ptl : String)
    (hni : strHas etl "intercept" = false) :
    interceptionOf etl ptl true = false := by
  unfold interceptionOf
  rw [if_pos]
  simp [hni, strHas_interception_false etl hni]

/-- With the interception flag off, the event list of the turnover block is
the onside part, the fumble part and the muffed part in order. -/
theorem computeTurnover_events_no_int (ia ai : List (String × String))
    (inp : TOInput)
    (h2p : twoPointText inp.eventTextLower = false)
    (hint : interceptionOf inp.eventTextLower inp.playTypeLower
      inp.hasReplayReversal = false) :
    (computeTurnover ia ai inp).events =
      ((if kickingRecoveredOnsideOf inp then
          [(inp.teamId, "onside_kick_lost")] else []) ++
        (if fumbleTurnoverOf ia ai inp &&
            !muffedKickOf inp.eventTextLower inp.playTypeLower then
          [((possessorAtFumble ia inp).1, "fumble")] else []) ++
        (if muffedKickOf inp.eventTextLower inp.playTypeLower &&
            !kickingRecoveredOnsideOf inp then
          [((possessorAtFumble ia inp).1, "muffed_kick")] else [])) := by
  simp only [computeTurnover, h2p, hint, Bool.false_eq_true, if_false]
  rw [append_ite, append_ite, List.append_assoc]

theorem computeTurnover_no_interception_reason (ia ai : List (String × String))
    (inp : TOInput)
    (hint : interceptionOf inp.eventTextLower inp.playTypeLower
      inp.hasReplayReversal = false) :
    ∀ ev ∈ (computeTurnover ia ai inp).events, ev.2 ≠ "interception" := by
  intro ev hev
  by_cases h2p : twoPointText inp.eventTextLower = true
  · have : (computeTurnover ia ai inp).events = [] := by
      simp [computeTurnover, h2p]
    rw [this] at hev
    cases hev
  · rw [computeTurnover_events_no_int ia ai inp
      (by cases hx : twoPointText inp.eventTextLower
          · rfl
          · exact absurd hx h2p) hint] at hev
    rcases List.mem_append.mp hev with hx | hx
    · rcases List.mem_append.mp hx with hy | hy
      · split at hy
        · simp only [List.mem_singleton] at hy
          rw [hy]
          simp
        · cases hy
      · split at hy
        · simp only [List.mem_singleton] at hy
          rw [hy]
          simp
        · cases hy
    · split at hx
      · simp only [List.mem_singleton] at hx
        rw [hx]
        simp
      · cases hx

/-- With no interception, fumble, muffed-kick or onside trigger in the
resolved text, the turnover block emits nothing. -/
theorem computeTurnover_no_triggers (ia ai : List (String × String))
    (inp : TOInput)
    (hint : interceptionOf inp.eventTextLower inp.playTypeLower
      inp.hasReplayReversal = false)
    (hfum : strHas inp.eventTextLower "fumble" = false)
    (hmuff : muffedKickOf inp.eventTextLower inp.playTypeLower = false)
    (hons : strHas inp.eventTextLower "onside" = false) :
    (computeTurnover ia ai inp).events = [] := by
  by_cases h2p : twoPointText inp.eventTextLower = true
  · simp [computeTurnover, h2p]
  · have h2pf : twoPointText inp.eventTextLower = false := by
      cases hx : twoPointText inp.eventTextLower
      · rfl
      · exact absurd hx h2p
    have hkro : kickingRecoveredOnsideOf inp = false := by
      simp [kickingRecoveredOnsideOf, onsideKickOf, hons]
    have hft : fumbleTurnoverOf ia ai inp = false := by
      simp [fumbleTurnoverOf, hfum]
    rw [computeTurnover_events_no_int ia ai inp h2pf hint, hkro, hft, hmuff]
    simp

/-- C2 (amended): for every play whose raw text contains a replay marker
with a non-blank remainder after the last marker, turnover detection runs
against that resolved remainder: if it contains no interception wording,
zero interception events are emitted (every appended Turnovers detail entry
has a non-interception reason) even if the pre-reversal text says
"intercepted"; and if additionally the resolved text contains no fumble or
onside wording and the play is not flagged as a muffed kick — no "muffed
punt" / "muffed kick" / "muffed kickoff" in the resolved text and no "muff"
in the play-type text, which the muffed-kick check also reads — then no
team's Turnovers counter or detail list changes. -/
theorem C2_reversal_suppresses_interception (ctx : ProcCtx) (teamId : String)
    (st : ProcState) (p : Play) (rem : List Char)
    (hm : lastReplayRemainder none (p.text.getD "").data none = some rem)
    (hne : lstripPy rem ≠ [])
    (hni : strHas (pyLower (final_play_text (p.text.getD "")))
      "intercept" = false) :
    (∀ k, ∃ extra,
      (processPlay ctx teamId st p).turnoverDetailsOf k =
        st.turnoverDetailsOf k ++ extra ∧
      ∀ d ∈ extra, d.reason ≠ "interception") ∧
    ((strHas (pyLower (final_play_text (p.text.getD ""))) "fumble" = false →
      muffedKickOf (pyLower (final_play_text (p.text.getD "")))
        (pyLower (p.typeText.getD "Unknown")) = false →
      strHas (pyLower (final_play_text (p.text.getD ""))) "onside" = false →
      ∀ k, (processPlay ctx teamId st p).turnoversOf k = st.turnoversOf k ∧
        (processPlay ctx teamId st p).turnoverDetailsOf k =
          st.turnoverDetailsOf k)) := by
  have hrr : (toInputOf ctx teamId p).hasReplayReversal = true :=
    decide_eq_true (final_play_text_of_marker (p.text.getD "") rem hm hne).2
  have hint : interceptionOf (toInputOf ctx teamId p).eventTextLower
      (toInputOf ctx teamId p).playTypeLower
      (toInputOf ctx teamId p).hasReplayReversal = false := by
    rw [hrr]
    exact interceptionOf_suppressed _ _ hni
  constructor
  · intro k
    rcases processPlay_cases ctx teamId st p with hc | hc
    · refine ⟨[], ?_, by simp⟩
      rw [hc]
      simp [ProcState.turnoverDetailsOf, updatePrevWp_stats]
    · obtain ⟨extra, hx, hr⟩ := details_applyTurnoverEvents ctx.expanded p
        (p.typeText.getD "Unknown") (p.text.getD "")
        (lookupProbabilityWithDelta ctx.probabilityMap st.prevHomeWp
          st.prevAwayWp p)
        (computeTurnover ctx.idToAbbr ctx.abbrToId (toInputOf ctx teamId p)).events
        st.stats k
      refine ⟨extra, ?_, ?_⟩
      · rw [hc]
        have hoff := offensiveSection_preserves_turnovers ctx.expanded p teamId
          (pyLower (p.text.getD "")) (final_play_text (p.text.getD ""))
          (p.text.getD "")
          (lookupProbabilityWithDelta ctx.probabilityMap st.prevHomeWp
            st.prevAwayWp p)
          (computeTurnover ctx.idToAbbr ctx.abbrToId (toInputOf ctx teamId p))
          (applyTurnoverEvents ctx.expanded p (p.typeText.getD "Unknown")
            (p.text.getD "")
            (lookupProbabilityWithDelta ctx.probabilityMap st.prevHomeWp
              st.prevAwayWp p)
            (computeTurnover ctx.idToAbbr ctx.abbrToId
              (toInputOf ctx teamId p)).events st.stats) k
        simp only [ProcState.turnoverDetailsOf, updatePrevWp_stats]
        rw [hoff.2]
        exact hx
      · intro d hd
        have hmem := hr d hd
        obtain ⟨ev, hev, heq⟩ := List.mem_map.mp hmem
        rw [← heq]
        exact computeTurnover_no_interception_reason ctx.idToAbbr ctx.abbrToId
          (toInputOf ctx teamId p) hint ev hev
  · intro hfum hmuff hons k
    have hev : (computeTurnover ctx.idToAbbr ctx.abbrToId
        (toInputOf ctx teamId p)).events = [] :=
      computeTurnover_no_triggers _ _ _ hint hfum hmuff hons
    rcases processPlay_cases ctx teamId st p with hc | hc
    · rw [hc]
      constructor <;>
        simp [ProcState.turnoversOf, ProcState.turnoverDetailsOf, updatePrevWp_stats]
    · rw [hc, hev, applyTurnoverEvents_nil]
      have hoff := offensiveSection_preserves_turnovers ctx.expanded p teamId
        (pyLower (p.text.getD "")) (final_play_text (p.text.getD ""))
        (p.text.getD "")
        (lookupProbabilityWithDelta ctx.probabilityMap st.prevHomeWp
          st.prevAwayWp p)
        (computeTurnover ctx.idToAbbr ctx.abbrToId (toInputOf ctx teamId p))
        st.stats k
      constructor
      · simp only [ProcState.turnoversOf, updatePrevWp_stats]
        exact hoff.1
      · simp only [ProcState.turnoverDetailsOf, updatePrevWp_stats]
        exact hoff.2

unseal Rat.add Rat.sub Rat.mul Rat.inv Rat.ofScientific in
/-- Witness for C2 at a reversed-interception-turned-sack play. -/
theorem C2_reversal_suppresses_interception_witness :
    (processPlay (procCtxOf { teams := teamsAB, drives := [] } true [] (975 / 1000))
        "1" (initStateOf { teams := teamsAB, drives := [] } none)
        sackReversalPlay).turnoversOf "1" =
      (initStateOf { teams := teamsAB, drives := [] } none).turnoversOf "1" :=
  ((C2_reversal_suppresses_interception
      (procCtxOf { teams := teamsAB, drives := [] } true [] (975 / 1000)) "1"
      (initStateOf { teams := teamsAB, drives := [] } none) sackReversalPlay
      "QB sacked for -7 yards.".data rfl (by decide) rfl).2 rfl rfl rfl "1").1

unseal Rat.add Rat.sub Rat.mul Rat.inv Rat.ofScientific in
/-- C2 counterexample: the claim's resolved text (the portion after the last
marker) has no interception wording — and in fact no reversed interception
is counted — yet the play still increments a Turnovers counter, through the
fumble in the restated final ruling. -/
theorem C2_counterexample :
    (lastReplayRemainder none reversalFumbleText.data none).isSome = true ∧
    strHas (pyLower reversalFumbleText) "intercepted" = true ∧
    strHas (pyLower (final_play_text reversalFumbleText)) "intercept" = false ∧
    (processGameStats reversalFumbleGame true [] none (975 / 1000)).turnoversOf
      "1" = 1 ∧
    ((processGameStats reversalFumbleGame true [] none
        (975 / 1000)).turnoverDetailsOf "1").map (·.reason) = ["fumble"] :=
  ⟨rfl, rfl, rfl, rfl, rfl⟩

theorem mem_ite_singleton {α : Type} {x y : α} {c : Bool}
    (h : x ∈ (if c = true then [y] else [])) : c = true ∧ x = y := by
  cases c
  · simp at h
  · simpa using h

/-- The turnover event list decomposes into its onside, interception, fumble
and muffed-kick parts, in that order. -/
theorem computeTurnover_events_decomp (ia ai : List (String × String))
    (inp : TOInput) (h2p : twoPointText inp.eventTextLower = false) :
    (computeTurnover ia ai inp).events =
      ((if kickingRecoveredOnsideOf inp then
          [(inp.teamId, "onside_kick_lost")] else []) ++
        (if interceptionOf inp.eventTextLower inp.playTypeLower
            inp.hasReplayReversal then
          [((possessorBeforeInterception ia inp).1, "interception")] else []) ++
        (if fumbleTurnoverOf ia ai inp &&
            !muffedKickOf inp.eventTextLower inp.playTypeLower then
          [((possessorAtFumble ia inp).1, "fumble")] else []) ++
        (if muffedKickOf inp.eventTextLower inp.playTypeLower &&
            !kickingRecoveredOnsideOf inp then
          [((possessorAtFumble ia inp).1, "muffed_kick")] else [])) := by
  simp only [computeTurnover, h2p, Bool.false_eq_true, if_false]
  rw [append_ite, append_ite, append_ite, List.append_assoc, List.append_assoc]

/-- With a fumble phrase and a successful recovery resolution, the
`fumble_turnover` flag is exactly "touchback, or resolved team differs from
the possessor at fumble time". -/
theorem fumbleTurnoverOf_resolved (ia ai : List (String × String))
    (inp : TOInput) (r : String)
    (hfum : strHas inp.eventTextLower "fumble" = true)
    (hres : resolveFumbleRecovery ai inp.eventTextLower inp.playTypeLower
      (possessorAtFumble ia inp).1 inp.endTeamId inp.opponentId = some r) :
    fumbleTurnoverOf ia ai inp =
      (strHas inp.eventTextLower "touchback" ||
        decide (r ≠ (possessorAtFumble ia inp).1)) := by
  simp only [fumbleTurnoverOf, hfum, if_true, hres]
  cases ht : strHas inp.eventTextLower "touchback" <;> simp [ht]

/-- C4 (amended): for a non-two-point, non-muffed play whose resolved text
contains "fumble" and whose recovery resolves to a team `r` (play-type tag,
then `recovered by <ABBR>` normalized through the alias table — which
contains only WAS→WSH — then the generic self-recovery phrase, then the end
team), a `(possessor-at-fumble-time, "fumble")` event is emitted iff the play
is a touchback or `r` differs from the possessor at fumble time. -/
theorem C4_fumble_resolution (ia ai : List (String × String)) (inp : TOInput)
    (r : String)
    (hfum : strHas inp.eventTextLower "fumble" = true)
    (h2p : twoPointText inp.eventTextLower = false)
    (hmuff : muffedKickOf inp.eventTextLower inp.playTypeLower = false)
    (hres : resolveFumbleRecovery ai inp.eventTextLower inp.playTypeLower
      (possessorAtFumble ia inp).1 inp.endTeamId inp.opponentId = some r) :
    ((((possessorAtFumble ia inp).1, "fumble") ∈
        (computeTurnover ia ai inp).events) ↔
      (strHas inp.eventTextLower "touchback" = true ∨
        r ≠ (possessorAtFumble ia inp).1)) ∧
    TEAM_ABBR_ALIASES = [("was", "wsh")] := by
  refine ⟨?_, rfl⟩
  rw [computeTurnover_events_decomp ia ai inp h2p,
    fumbleTurnoverOf_resolved ia ai inp r hfum hres, hmuff]
  simp only [Bool.not_false, Bool.and_true, Bool.false_and]
  constructor
  · intro hmem
    rcases List.mem_append.mp hmem with hx | hx
    · rcases List.mem_append.mp hx with hy | hy
      · exfalso
        rcases List.mem_append.mp hy with hz | hz
        · have := (mem_ite_singleton hz).2
          simp only [Prod.mk.injEq] at this
          exact absurd this.2 (by decide)
        · have := (mem_ite_singleton hz).2
          simp only [Prod.mk.injEq] at this
          exact absurd this.2 (by decide)
      · have hc := (mem_ite_singleton hy).1
        rcases Bool.or_eq_true_iff.mp hc with h | h
        · exact Or.inl h
        · exact Or.inr (of_decide_eq_true h)
    · exfalso
      simp at hx
  · intro hor
    have hc : (strHas inp.eventTextLower "touchback" ||
        decide (r ≠ (possessorAtFumble ia inp).1)) = true := by
      rcases hor with h | h
      · simp [h]
      · simp [h]
    refine List.mem_append.mpr (Or.inl (List.mem_append.mpr (Or.inr ?_)))
    rw [hc]
    simp

/-- Witness for C4: a fumble recovered by the opponent is an emitted event. -/
theorem C4_fumble_resolution_witness :
    (("5", "fumble")) ∈ (computeTurnover (buildIdToAbbr teamsWshDal)
      (buildAbbrToId (buildIdToAbbr teamsWshDal)) dalRecoveryInput).events :=
  ((C4_fumble_resolution (buildIdToAbbr teamsWshDal)
      (buildAbbrToId (buildIdToAbbr teamsWshDal)) dalRecoveryInput "6"
      rfl rfl rfl rfl).1).mpr (Or.inr (by decide))

unseal Rat.add Rat.sub Rat.mul Rat.inv Rat.ofScientific in
/-- C4 counterexample: the `nfl_core` alias table has no LA entry, so
"recovered by la" in a LAR/SEA game falls through to the end team and a
turnover is charged, where the claim's LA→LAR normalization predicts a
self-recovery and no event. -/
theorem C4_counterexample :
    lookupStr TEAM_ABBR_ALIASES "la" = none ∧
    findRecoveredAbbr (pyLower laRecoveryText) = some "la" ∧
    lookupStr (buildAbbrToId (buildIdToAbbr laRecoveryGame.teams)) "lar" =
      some "10" ∧
    (processGameStats laRecoveryGame true [] none (975 / 1000)).turnoversOf
      "10" = 1 ∧
    ((processGameStats laRecoveryGame true [] none
        (975 / 1000)).turnoverDetailsOf "10").map (·.reason) = ["fumble"] :=
  ⟨rfl, rfl, rfl, rfl, rfl⟩

unseal Rat.add Rat.sub Rat.mul Rat.inv Rat.ofScientific in
/-- C5: Scenario B — a competitive play by offense AAA reading
"... INTERCEPTED by (BBB's defender) ... FUMBLES, RECOVERED by AAA ..."
yields the ordered events (AAA, interception) then (BBB, fumble), increments
both teams' Turnovers by one, and in general every emitted event whose team
is a box-score team is recorded in that team's counter. -/
theorem C5_scenarioB_double_turnover :
    (computeTurnover (buildIdToAbbr teamsAB)
        (buildAbbrToId (buildIdToAbbr teamsAB))
        (toInputOf (procCtxOf scenarioBGame true [] (975 / 1000)) "1"
          scenarioBPlay)).events =
      [("1", "interception"), ("2", "fumble")] ∧
    (processGameStats scenarioBGame true [] none (975 / 1000)).turnoversOf
      "1" = 1 ∧
    (processGameStats scenarioBGame true [] none (975 / 1000)).turnoversOf
      "2" = 1 ∧
    ((processGameStats scenarioBGame true [] none
        (975 / 1000)).turnoverDetailsOf "1").map (·.reason) =
      ["interception"] ∧
    ((processGameStats scenarioBGame true [] none
        (975 / 1000)).turnoverDetailsOf "2").map (·.reason) = ["fumble"] ∧
    (∀ (e : Bool) (p : Play) (pt tx : String) (sn : Option ProbSnapshot)
        (evs : List (String × String)) (stats : StatsMap) (k : String),
      memKey stats k = true →
      ((lookupStr (applyTurnoverEvents e p pt tx sn evs stats) k).getD
          {}).turnovers =
        ((lookupStr stats k).getD {}).turnovers +
          (evs.filter (fun ev => ev.1 = k)).length) :=
  ⟨rfl, rfl, rfl, rfl, rfl,
   fun e p pt tx sn evs stats k hk =>
     turnovers_applyTurnoverEvents e p pt tx sn evs stats k hk⟩

/-- Witness for C5's universally quantified recording conjunct. -/
theorem C5_scenarioB_double_turnover_witness :
    ((lookupStr (applyTurnoverEvents false {} "Pass" "x" none
        [("1", "interception")] (initStats teamsAB)) "1").getD {}).turnovers =
      ((lookupStr (initStats teamsAB) "1").getD {}).turnovers + 1 := by
  have h := C5_scenarioB_double_turnover.2.2.2.2.2 false {} "Pass" "x" none
    [("1", "interception")] (initStats teamsAB) "1" rfl
  simpa using h

theorem memKey_applyTurnoverEvents (e : Bool) (p : Play) (pt tx : String)
    (sn : Option ProbSnapshot) (evs : List (String × String))
    (stats : StatsMap) (k : String) :
    memKey (applyTurnoverEvents e p pt tx sn evs stats) k = memKey stats k := by
  induction evs generalizing stats with
  | nil => rfl
  | cons ev rest ih =>
    have hstep : applyTurnoverEvents e p pt tx sn (ev :: rest) stats =
        applyTurnoverEvents e p pt tx sn rest
          (recordTurnoverEvent e p pt tx sn stats ev) := rfl
    rw [hstep, ih, memKey_recordTurnoverEvent]

theorem memKey_offensiveSection (e : Bool) (p : Play) (tid tl et tx : String)
    (sn : Option ProbSnapshot) (tr : TOResult) (stats : StatsMap) (k : String) :
    memKey (offensiveSection e p tid tl et tx sn tr stats) k =
      memKey stats k := by
  simp only [offensiveSection]
  split
  · exact memKey_updStats ..
  · rfl

theorem processPlay_memKey (ctx : ProcCtx) (tid : String) (st : ProcState)
    (p : Play) (k : String) :
    memKey (processPlay ctx tid st p).stats k = memKey st.stats k := by
  rcases processPlay_cases ctx tid st p with hc | hc <;> rw [hc, updatePrevWp_stats]
  rw [memKey_offensiveSection, memKey_applyTurnoverEvents]

theorem foldl_processPlay_memKey (ctx : ProcCtx)
    (l : List (String × Play)) (st : ProcState) (k : String) :
    memKey ((l.foldl (fun s tp => processPlay ctx tp.1 s tp.2) st)).stats k =
      memKey st.stats k := by
  induction l generalizing st with
  | nil => rfl
  | cons tp rest ih =>
    rw [List.foldl_cons, ih, processPlay_memKey]

theorem foldl_drives_eq_flatten (ctx : ProcCtx) (base : StatsMap)
    (drives : List Drive) (st : ProcState)
    (hkeys : ∀ k, memKey st.stats k = memKey base k) :
    drives.foldl (processDrive ctx) st =
      ((drives.map (drivePlays base)).flatten).foldl
        (fun s tp => processPlay ctx tp.1 s tp.2) st := by
  induction drives generalizing st with
  | nil => rfl
  | cons d ds ih =>
    rw [List.foldl_cons, List.map_cons, List.flatten_cons, List.foldl_append]
    have hd : processDrive ctx st d =
        (drivePlays base d).foldl (fun s tp => processPlay ctx tp.1 s tp.2) st := by
      unfold processDrive drivePlays
      cases d.teamId with
      | none => rfl
      | some tid =>
        dsimp only
        rw [hkeys tid]
        by_cases hmem : memKey base tid = true
        · rw [if_pos hmem, if_pos hmem, List.foldl_map]
        · rw [if_neg hmem, if_neg hmem]
          rfl
    rw [hd]
    exact ih _ (fun k => by rw [foldl_processPlay_memKey]; exact hkeys k)

theorem processGameStats_eq_statesAfter (g : GameData) (expanded : Bool)
    (m : ProbMap) (pg : Option (Option ℚ × Option ℚ)) (t : ℚ) :
    processGameStats g expanded m pg t =
      statesAfter g expanded m pg t (processedPlays g).length := by
  unfold processGameStats statesAfter
  rw [List.take_length]
  exact foldl_drives_eq_flatten (procCtxOf g expanded m t)
    (initStats g.teams) g.drives (initStateOf g pg) (fun k => rfl)

/-- The invariant of the win-probability tracker. -/
def wpInv (st : ProcState) : Prop :=
  0 ≤ st.prevHomeWp ∧ st.prevHomeWp ≤ 1 ∧ 0 ≤ st.prevAwayWp ∧ st.prevAwayWp ≤ 1

/-- Every probability entry of the map has its win percentages in `[0, 1]`
when present. -/
def probMapInRange (m : ProbMap) : Prop :=
  ∀ kv ∈ m, (∀ q, kv.2.homeWinPercentage = some q → 0 ≤ q ∧ q ≤ 1) ∧
    (∀ q, kv.2.awayWinPercentage = some q → 0 ≤ q ∧ q ≤ 1)

theorem lookupStr_mem {α : Type} (m : List (String × α)) (k : String) (v : α)
    (h : lookupStr m k = some v) : (k, v) ∈ m := by
  induction m with
  | nil => cases h
  | cons kv rest ih =>
    obtain ⟨k1, v1⟩ := kv
    rw [lookupStr_cons] at h
    by_cases hk : k1 = k
    · rw [if_pos hk] at h
      cases h
      subst hk
      exact List.mem_cons_self _ _
    · rw [if_neg hk] at h
      exact List.mem_cons_of_mem _ (ih h)

theorem updatePrevWp_wpInv (m : ProbMap) (p : Play) (st : ProcState)
    (hm : probMapInRange m) (h : wpInv st) : wpInv (updatePrevWp m p st) := by
  cases hid : p.id with
  | none => simpa [updatePrevWp, hid] using h
  | some pid =>
    cases hl : probLookup m pid with
    | none => simpa [updatePrevWp, hid, hl] using h
    | some e =>
      have hmem := hm (pid, e) (lookupStr_mem m pid e hl)
      simp only [updatePrevWp, hid, hl]
      refine ⟨?_, ?_, ?_, ?_⟩
      · cases hh : e.homeWinPercentage with
        | none => simpa using h.1
        | some q => simpa [hh] using (hmem.1 q hh).1
      · cases hh : e.homeWinPercentage with
        | none => simpa using h.2.1
        | some q => simpa [hh] using (hmem.1 q hh).2
      · cases ha : e.awayWinPercentage with
        | none => simpa using h.2.2.1
        | some q => simpa [ha] using (hmem.2 q ha).1
      · cases ha : e.awayWinPercentage with
        | none => simpa using h.2.2.2
        | some q => simpa [ha] using (hmem.2 q ha).2

theorem processPlay_wpInv (ctx : ProcCtx) (tid : String) (st : ProcState)
    (p : Play) (hm : probMapInRange ctx.probabilityMap) (h : wpInv st) :
    wpInv (processPlay ctx tid st p) := by
  rcases processPlay_cases ctx tid st p with hc | hc <;> rw [hc]
  · exact updatePrevWp_wpInv _ _ _ hm h
  · exact updatePrevWp_wpInv _ _ _ hm h

theorem sanitizeProb_range (v : Option ℚ) (fb : ℚ) (hfb : 0 ≤ fb ∧ fb ≤ 1) :
    0 ≤ sanitizeProb v fb ∧ sanitizeProb v fb ≤ 1 := by
  cases v with
  | none => exact hfb
  | some q =>
    constructor
    · exact le_max_left 0 _
    · exact max_le (by norm_num) (min_le_left 1 q)

theorem initStateOf_wpInv (g : GameData)
    (pg : Option (Option ℚ × Option ℚ)) : wpInv (initStateOf g pg) := by
  unfold initStateOf wpInv
  have hh := sanitizeProb_range (pg.getD (some (1 / 2), some (1 / 2))).1 (1 / 2)
    (by norm_num)
  have ha := sanitizeProb_range (pg.getD (some (1 / 2), some (1 / 2))).2
    (1 - sanitizeProb (pg.getD (some (1 / 2), some (1 / 2))).1 (1 / 2))
    (by constructor <;> [linarith [hh.2]; linarith [hh.1]])
  exact ⟨hh.1, hh.2, ha.1, ha.2⟩

/-- C9 (amended): the tracker is seeded from the pregame probabilities
clamped to `[0, 1]` (away defaulting to `1 − home`, or `0.5/0.5` when
absent) and, PROVIDED every probability-map value lies in `[0, 1]`, stays in
`[0, 1]` after every per-play advance of the fold — without that proviso the
advance copies raw map values unclamped (see the counterexample). -/
theorem C9_wp_tracker_invariant (g : GameData) (expanded : Bool) (m : ProbMap)
    (pg : Option (Option ℚ × Option ℚ)) (t : ℚ) (hm : probMapInRange m) :
    (∀ n, wpInv (statesAfter g expanded m pg t n)) ∧
    processGameStats g expanded m pg t =
      statesAfter g expanded m pg t (processedPlays g).length := by
  constructor
  · intro n
    have hfold : ∀ (l : List (String × Play)) (st : ProcState), wpInv st →
        wpInv (l.foldl
          (fun s tp => processPlay (procCtxOf g expanded m t) tp.1 s tp.2) st) := by
      intro l
      induction l with
      | nil => exact fun st h => h
      | cons tp rest ih =>
        intro st h
        rw [List.foldl_cons]
        exact ih _ (processPlay_wpInv _ _ _ _ hm h)
    exact hfold _ _ (initStateOf_wpInv g pg)
  · exact processGameStats_eq_statesAfter g expanded m pg t

/-- Witness for C9 on the Scenario B game with an empty probability map. -/
theorem C9_wp_tracker_invariant_witness :
    0 ≤ (statesAfter scenarioBGame true [] none (975 / 1000) 1).prevHomeWp ∧
    (statesAfter scenarioBGame true [] none (975 / 1000) 1).prevHomeWp ≤ 1 :=
  have h := (C9_wp_tracker_invariant scenarioBGame true [] none (975 / 1000)
    (by intro kv hkv; cases hkv)).1 1
  ⟨h.1, h.2.1⟩

unseal Rat.add Rat.sub Rat.mul Rat.inv Rat.ofScientific in
/-- C9 counterexample: an out-of-range end-of-play probability is copied
into the tracker unclamped, leaving the state outside `[0, 1]`. -/
theorem C9_counterexample :
    (processGameStats outOfRangeGame false outOfRangeProbMap none
        (975 / 1000)).prevHomeWp = 3 / 2 ∧
    ¬ ((processGameStats outOfRangeGame false outOfRangeProbMap none
        (975 / 1000)).prevHomeWp ≤ 1) ∧
    (processGameStats outOfRangeGame false outOfRangeProbMap none
        (975 / 1000)).prevAwayWp = -(1 / 4) := by
  have h : (processGameStats outOfRangeGame false outOfRangeProbMap none
      (975 / 1000)).prevHomeWp = 3 / 2 := rfl
  refine ⟨h, ?_, rfl⟩
  rw [h]
  norm_num

theorem processPlay_emptyPlay (ctx : ProcCtx) (tid : String) (st : ProcState) :
    processPlay ctx tid st emptyPlay = st := by
  rcases processPlay_cases ctx tid st emptyPlay with hc | hc
  · rw [hc]
    rfl
  · rw [hc]
    have hev : (computeTurnover ctx.idToAbbr ctx.abbrToId
        (toInputOf ctx tid emptyPlay)).events = [] := by
      apply computeTurnover_no_triggers
      · rfl
      · rfl
      · rfl
      · rfl
    rw [hev, applyTurnoverEvents_nil]
    have hcls : classify_offense_play emptyPlay = (true, false, false) := by decide
    have hoff : offensiveSection ctx.expanded emptyPlay tid
        (pyLower (emptyPlay.text.getD ""))
        (final_play_text (emptyPlay.text.getD "")) (emptyPlay.text.getD "")
        (lookupProbabilityWithDelta ctx.probabilityMap st.prevHomeWp
          st.prevAwayWp emptyPlay)
        (computeTurnover ctx.idToAbbr ctx.abbrToId (toInputOf ctx tid emptyPlay))
        st.stats = st.stats := by
      simp [offensiveSection, hcls]
    rw [hoff]
    rfl

theorem processPlayE_ok (ctx : ProcCtx) (tid : String) (st : ProcState)
    (p : RawPlay) (h : p.noNull) :
    processPlayE ctx tid st p = .ok (processPlay ctx tid st p.toPlayTotal) := by
  obtain ⟨h1, h2, h3, h4, h5⟩ := h
  simp [processPlayE, h1, h2, h3, h4, h5]

theorem processPlayE_null_id_penalty (ctx : ProcCtx) (tid : String)
    (st : ProcState) (p : RawPlay) :
    processPlayE ctx tid st
        { p with idF := KeyShape.null, penaltyF := KeyShape.null } =
      processPlayE ctx tid st
        { p with idF := KeyShape.missing, penaltyF := KeyShape.missing } := by
  simp [processPlayE, RawPlay.toPlayTotal]

theorem foldlM_playsE (ctx : ProcCtx) (tid : String) (plays : List RawPlay)
    (st : ProcState) (h : ∀ p ∈ plays, p.noNull) :
    plays.foldlM (processPlayE ctx tid) st =
      .ok ((plays.map RawPlay.toPlayTotal).foldl (processPlay ctx tid) st) := by
  induction plays generalizing st with
  | nil => rfl
  | cons p rest ih =>
    rw [List.foldlM_cons, processPlayE_ok ctx tid st p (h p (List.mem_cons_self ..))]
    show rest.foldlM (processPlayE ctx tid)
        (processPlay ctx tid st p.toPlayTotal) = _
    rw [ih _ (fun q hq => h q (List.mem_cons_of_mem _ hq)), List.map_cons,
      List.foldl_cons]

theorem processDriveE_ok (ctx : ProcCtx) (st : ProcState) (d : RawDrive)
    (h : ∀ p ∈ d.plays, p.noNull) :
    processDriveE ctx st d = .ok (processDrive ctx st d.toDrive) := by
  unfold processDriveE processDrive RawDrive.toDrive
  cases d.teamId with
  | none => rfl
  | some tid =>
    dsimp only
    by_cases hm : memKey st.stats tid = true
    · rw [if_pos hm, if_pos hm]
      exact foldlM_playsE ctx tid d.plays st h
    · rw [if_neg hm, if_neg hm]

theorem foldlM_drivesE (ctx : ProcCtx) (drives : List RawDrive)
    (st : ProcState)
    (h : ∀ d ∈ drives, ∀ p ∈ d.plays, p.noNull) :
    drives.foldlM (processDriveE ctx) st =
      .ok ((drives.map RawDrive.toDrive).foldl (processDrive ctx) st) := by
  induction drives generalizing st with
  | nil => rfl
  | cons d ds ih =>
    rw [List.foldlM_cons, processDriveE_ok ctx st d (h d (List.mem_cons_self ..))]
    show ds.foldlM (processDriveE ctx) (processDrive ctx st d.toDrive) = _
    rw [ih _ (fun d' hd' => h d' (List.mem_cons_of_mem _ hd')), List.map_cons,
      List.foldl_cons]

/-- C7 (amended): missing keys never raise — a run over a game none of whose
plays holds a present null value in a guarded key returns normally with the
total-world result, the all-keys-missing play object `{}` leaves the fold
state unchanged (so the other plays' contributions are unaffected), and a
null `id` or `penalty` value behaves exactly like the missing key; but a
null value in `text`, `type`, `start`, `end` or `period` raises
`AttributeError` at its access point instead of degrading (see the
counterexample for `text`). -/
theorem C7_missing_keys_never_raise (g : RawGameData) (expanded : Bool)
    (m : ProbMap) (pg : Option (Option ℚ × Option ℚ)) (t : ℚ)
    (h : ∀ d ∈ g.drives, ∀ p ∈ d.plays, p.noNull) :
    processGameStatsE g expanded m pg t =
      .ok (processGameStats g.toGameData expanded m pg t) ∧
    (∀ (ctx : ProcCtx) (tid : String) (st : ProcState),
      processPlay ctx tid st emptyPlay = st) ∧
    (∀ (ctx : ProcCtx) (tid : String) (st : ProcState) (p : RawPlay),
      processPlayE ctx tid st
          { p with idF := KeyShape.null, penaltyF := KeyShape.null } =
        processPlayE ctx tid st
          { p with idF := KeyShape.missing, penaltyF := KeyShape.missing }) := by
  refine ⟨?_, processPlay_emptyPlay, processPlayE_null_id_penalty⟩
  unfold processGameStatsE processGameStats
  exact foldlM_drivesE _ g.drives _ h

/-- Witness for C7: a game whose single play object is `{}`. -/
theorem C7_missing_keys_never_raise_witness :
    (∀ d ∈ missingKeysGame.drives, ∀ p ∈ d.plays, p.noNull) ∧
    (processGameStatsE missingKeysGame true [] none 1 =
      .ok (processGameStats missingKeysGame.toGameData true [] none 1) ∧
     (∀ (ctx : ProcCtx) (tid : String) (st : ProcState),
       processPlay ctx tid st emptyPlay = st) ∧
     (∀ (ctx : ProcCtx) (tid : String) (st : ProcState) (p : RawPlay),
       processPlayE ctx tid st
           { p with idF := KeyShape.null, penaltyF := KeyShape.null } =
         processPlayE ctx tid st
           { p with idF := KeyShape.missing, penaltyF := KeyShape.missing })) :=
  ⟨by decide,
   C7_missing_keys_never_raise missingKeysGame true [] none 1 (by decide)⟩

/-- C7 counterexample: a play whose `text` key holds a null value raises
`AttributeError` at `text.lower()` instead of degrading. -/
theorem C7_counterexample :
    processGameStatsE nullTextGame true [] none 1 =
      .error "AttributeError: NoneType object has no attribute lower" := rfl

unseal Rat.add Rat.sub Rat.mul Rat.inv Rat.ofScientific in
theorem round4_half : round4 (1 / 2) = 1 / 2 := rfl

theorem probLookup_nil (k : String) : probLookup [] k = none := rfl

theorem updatePrevWp_nil (p : Play) (st : ProcState) :
    updatePrevWp [] p st = st := by
  cases hid : p.id with
  | none => simp [updatePrevWp, hid]
  | some pid => simp [updatePrevWp, hid, probLookup, lookupStr]

theorem is_competitive_half (p : Play) :
    is_competitive_play p [] 1 (some (1 / 2)) (some (1 / 2)) = true := by
  have hmax : max (1 / 2 : ℚ) (1 / 2) < 1 := by norm_num
  by_cases hper : p.periodNumber.getD 0 ≥ 5
  · simp [is_competitive_play, hper]
  · cases hid : p.id <;>
      simp [is_competitive_play, hper, hid, isCompetFromProbs, probLookup,
        lookupStr, hmax] <;> norm_num

theorem initStateOf_none_wp (g : GameData) :
    (initStateOf g none).prevHomeWp = 1 / 2 ∧
    (initStateOf g none).prevAwayWp = 1 / 2 := by
  have h1 : max (0 : ℚ) (min 1 (1 / 2)) = 1 / 2 := by norm_num
  constructor <;> simp [initStateOf, sanitizeProb, h1] <;> norm_num

theorem memKey_lookup {α : Type} (m : List (String × α)) (k : String)
    (h : memKey m k = true) : ∃ v, lookupStr m k = some v := by
  induction m with
  | nil => simp [memKey] at h
  | cons kv rest ih =>
    by_cases hk : kv.1 = k
    · exact ⟨kv.2, by rw [lookupStr_cons, if_pos hk]⟩
    · have : memKey rest k = true := by
        simpa [memKey, List.any_cons, hk] using h
      obtain ⟨v, hv⟩ := ih this
      exact ⟨v, by rw [lookupStr_cons, if_neg hk, hv]⟩

theorem dictInsert_two {α : Type} (k1 : String) (v1 : α) (k2 : String) (v2 : α)
    (h : k1 ≠ k2) :
    dictInsert (dictInsert [] k1 v1) k2 v2 = [(k1, v1), (k2, v2)] := by
  simp [dictInsert, memKey, h]

theorem buildIdToAbbr_pair (i1 a1 i2 a2 : String) (h1 : i1 ≠ "")
    (h2 : a1 ≠ "") (h3 : i2 ≠ "") (h4 : a2 ≠ "") (h5 : i1 ≠ i2) :
    buildIdToAbbr [(i1, a1), (i2, a2)] = [(i1, a1), (i2, a2)] := by
  simp [buildIdToAbbr, dictInsert, memKey, h1, h2, h3, h4, h5]

theorem initStats_pair (i1 a1 i2 a2 : String) (h : i1 ≠ i2) :
    initStats [(i1, a1), (i2, a2)] = [(i1, {}), (i2, {})] := by
  simp [initStats, dictInsert, memKey, h]

theorem strHas_event_false (t n : String)
    (h : strHas (pyLower t) n = false) :
    strHas (pyLower (final_play_text t)) n = false := by
  cases hx : strHas (pyLower (final_play_text t)) n
  · rfl
  · rw [strHas_of_event_text t n hx] at h
    cases h

theorem strHas_mono_needle (s n1 n2 : String) (hp : prefEq n1.data n2.data = true)
    (h : strHas s n1 = false) : strHas s n2 = false := by
  cases hx : strHas s n2
  · rfl
  · have hx' : occursIn n2.data s.data = true := hx
    have h' : occursIn n1.data s.data = false := h
    rw [occursIn_mono_needle n1.data n2.data s.data hp hx'] at h'
    cases h'

theorem cacheBenignPlay_unpack (driveTid : String) (p : Play)
    (h : cacheBenignPlay driveTid p = true) :
    p.id.getD "" ≠ "" ∧
    strHas (pyLower (p.typeText.getD "Unknown")) "timeout" = false ∧
    strHas (pyLower (p.typeText.getD "Unknown")) "end of" = false ∧
    strHas (pyLower (p.typeText.getD "Unknown")) "interception" = false ∧
    strHas (pyLower (p.typeText.getD "Unknown")) "muff" = false ∧
    strHas (pyLower (p.text.getD "")) "nullified" = false ∧
    strHas (pyLower (p.text.getD "")) "no play" = false ∧
    strHas (pyLower (p.text.getD "")) "fumble" = false ∧
    strHas (pyLower (p.text.getD "")) "muffed" = false ∧
    strHas (pyLower (p.text.getD "")) "onside" = false ∧
    strHas (pyLower (p.text.getD "")) "intentional grounding" = false ∧
    p.penalty = none ∧
    (strHas (pyLower (p.text.getD "")) "intercept" = false ∨
      (p.statYardage.getD 0 < 10 ∧ startTeamIdOf driveTid p = driveTid)) := by
  simp only [cacheBenignPlay, Bool.and_eq_true, bne_iff_ne, ne_eq,
    Bool.not_eq_true', beq_iff_eq, Bool.or_eq_true, decide_eq_true_eq,
    and_assoc] at h
  obtain ⟨h1, h2, h3, h4, h5, h6, h7, h8, h9, h10, h11, h12, h13⟩ := h
  refine ⟨h1, h2, h3, h4, h5, h6, h7, h8, h9, h10, h11, h12, ?_⟩
  rcases h13 with h13 | ⟨hy, hmatch⟩
  · exact Or.inl h13
  · right
    refine ⟨hy, ?_⟩
    unfold startTeamIdOf
    cases hst : p.startTeamId with
    | none => rfl
    | some s =>
      rw [hst] at hmatch
      simp only [beq_iff_eq, Bool.or_eq_true] at hmatch
      rcases hmatch with hs | hs
      · rw [hs]
        simp
      · rw [hs]
        by_cases hd : driveTid = "" <;> simp [hd]

theorem interceptionOf_no_type (etl ptl : String) (rev : Bool)
    (hpt : strHas ptl "interception" = false) :
    interceptionOf etl ptl rev = strHas etl "intercept" := by
  unfold interceptionOf
  cases hi : strHas etl "intercept" <;> simp [hpt, hi]

theorem possessorBeforeInterception_benign (ia : List (String × String))
    (inp : TOInput) (hfum : strHas inp.eventTextLower "fumble" = false)
    (hmuff : muffedKickOf inp.eventTextLower inp.playTypeLower = false) :
    possessorBeforeInterception ia inp =
      (inp.startTeamId, inp.offenseAbbrev) := by
  simp [possessorBeforeInterception, hfum, hmuff]

/-- On the benign fragment the turnover block emits exactly the interception
event, charged to the start team, and reports no fumble phrase. -/
theorem computeTurnover_benign (ia ai : List (String × String)) (inp : TOInput)
    (hpt : strHas inp.playTypeLower "interception" = false)
    (hfum : strHas inp.eventTextLower "fumble" = false)
    (hmuff : muffedKickOf inp.eventTextLower inp.playTypeLower = false)
    (hons : strHas inp.eventTextLower "onside" = false) :
    (computeTurnover ia ai inp).events =
      (if (!twoPointText inp.eventTextLower &&
          strHas inp.eventTextLower "intercept") = true then
        [(inp.startTeamId, "interception")] else []) ∧
    (computeTurnover ia ai inp).fumblePhrase = false := by
  by_cases h2p : twoPointText inp.eventTextLower = true
  · constructor <;> simp [computeTurnover, h2p]
  · have h2pf : twoPointText inp.eventTextLower = false := by
      cases hx : twoPointText inp.eventTextLower
      · rfl
      · exact absurd hx h2p
    have hkro : kickingRecoveredOnsideOf inp = false := by
      simp [kickingRecoveredOnsideOf, onsideKickOf, hons]
    have hft : fumbleTurnoverOf ia ai inp = false := by
      simp [fumbleTurnoverOf, hfum]
    have hint := interceptionOf_no_type inp.eventTextLower inp.playTypeLower
      inp.hasReplayReversal hpt
    have hposs := possessorBeforeInterception_benign ia inp hfum hmuff
    constructor
    · cases hi : strHas inp.eventTextLower "intercept" <;>
        simp [computeTurnover, h2pf, hkro, hft, hint, hposs, hmuff, hi]
    · simp [computeTurnover, h2pf, hfum]

theorem explosive_recordTurnoverEvent (e : Bool) (p : Play) (pt tx : String)
    (sn : Option ProbSnapshot) (stats : StatsMap) (ev : String × String)
    (k : String) :
    ((lookupStr (recordTurnoverEvent e p pt tx sn stats ev) k).getD
        {}).explosivePlays = ((lookupStr stats k).getD {}).explosivePlays := by
  unfold recordTurnoverEvent
  split
  · rw [lookupStr_updStats]
    by_cases hk : k = ev.1
    · rw [if_pos hk]
      cases lookupStr stats k <;> simp
    · rw [if_neg hk]
  · rfl

theorem explosive_applyTurnoverEvents (e : Bool) (p : Play) (pt tx : String)
    (sn : Option ProbSnapshot) (evs : List (String × String))
    (stats : StatsMap) (k : String) :
    ((lookupStr (applyTurnoverEvents e p pt tx sn evs stats) k).getD
        {}).explosivePlays = ((lookupStr stats k).getD {}).explosivePlays := by
  induction evs generalizing stats with
  | nil => rfl
  | cons ev rest ih =>
    have hstep : applyTurnoverEvents e p pt tx sn (ev :: rest) stats =
        applyTurnoverEvents e p pt tx sn rest
          (recordTurnoverEvent e p pt tx sn stats ev) := rfl
    rw [hstep, ih, explosive_recordTurnoverEvent]

/-- When no skip condition fires, `processPlay` runs the turnover block and
the offensive block before advancing the tracker. -/
theorem processPlay_main (ctx : ProcCtx) (tid : String) (st : ProcState)
    (p : Play)
    (h1 : strHas (pyLower (p.typeText.getD "Unknown")) "timeout" = false)
    (h2 : strHas (pyLower (p.typeText.getD "Unknown")) "end of" = false)
    (h3 : is_nullified_play (pyLower (p.text.getD "")) = false)
    (h4 : is_competitive_play p ctx.probabilityMap ctx.wpThreshold
      (some st.prevHomeWp) (some st.prevAwayWp) = true) :
    processPlay ctx tid st p =
      updatePrevWp ctx.probabilityMap p
        { st with stats :=
            (offensiveSection ctx.expanded p tid
              (pyLower (p.text.getD "")) (final_play_text (p.text.getD ""))
              (p.text.getD "")
              (lookupProbabilityWithDelta ctx.probabilityMap st.prevHomeWp
                st.prevAwayWp p)
              (computeTurnover ctx.idToAbbr ctx.abbrToId (toInputOf ctx tid p))
              (applyTurnoverEvents ctx.expanded p (p.typeText.getD "Unknown")
                (p.text.getD "")
                (lookupProbabilityWithDelta ctx.probabilityMap st.prevHomeWp
                  st.prevAwayWp p)
                (computeTurnover ctx.idToAbbr ctx.abbrToId
                  (toInputOf ctx tid p)).events st.stats)) } := by
  simp only [processPlay]
  rw [if_neg (by simp [h1, h2]), if_neg (by simp [h3]), if_neg (by simp [h4])]

/-- On the benign fragment the offensive block's explosive increment is the
common contribution `benignExplosive`. -/
theorem offensiveSection_benign (e : Bool) (p : Play) (tid : String)
    (sn : Option ProbSnapshot) (tr : TOResult) (stats : StatsMap) (k : String)
    (hmem : memKey stats tid = true)
    (hpen : p.penalty = none)
    (hig : strHas (pyLower (p.text.getD "")) "intentional grounding" = false)
    (hfp : tr.fumblePhrase = false)
    (hto : tr.turnoverOnPlay = benignTO p)
    (hy10 : benignTO p = true → p.statYardage.getD 0 < 10) :
    ((lookupStr (offensiveSection e p tid (pyLower (p.text.getD ""))
        (final_play_text (p.text.getD "")) (p.text.getD "") sn tr
        stats) k).getD {}).explosivePlays =
      ((lookupStr stats k).getD {}).explosivePlays +
        (if k = tid ∧ benignExplosive p = true then 1 else 0) := by
  simp only [offensiveSection]
  split
  · rename_i hgate
    have hcls1 : (classify_offense_play p).1 = true :=
      (Bool.and_eq_true ..).mp hgate |>.1
    rw [lookupStr_updStats]
    by_cases hk : k = tid
    · rw [if_pos hk]
      obtain ⟨v, hv⟩ := memKey_lookup stats tid hmem
      rw [hk, hv]
      simp only [Option.map_some', Option.getD_some]
      cases hbto : benignTO p
      · rw [hbto] at hto
        have hy2 : ¬ ((0 : ℚ) ≥ 10) := by norm_num
        simp only [hto, hfp, hpen, Option.none_bind, hig, Bool.false_eq_true,
          if_false, Bool.and_false, Bool.false_and, Bool.or_false,
          Bool.false_or]
        simp only [benignExplosive, hcls1, Bool.true_and, hk]
        simp [hpen, hig]
      · rw [hbto] at hto
        have hylt := hy10 hbto
        have hd1 : ¬ (p.statYardage.getD 0 ≥ 10) := not_le.mpr hylt
        have hd2 : ¬ (p.statYardage.getD 0 ≥ 20) := by
          intro hc
          exact hd1 (by linarith)
        have h010 : ¬ ((0 : ℚ) ≥ 10) := by norm_num
        have h020 : ¬ ((0 : ℚ) ≥ 20) := by norm_num
        simp only [hto, hfp, if_true, Bool.false_eq_true, if_false,
          Bool.and_false, Bool.false_and]
        simp [benignExplosive, hd1, hd2, h010, h020, hfp]
    · rw [if_neg hk, if_neg (fun hc => hk hc.1)]
      simp
  · rename_i hgate
    have hbe : ¬ (benignExplosive p = true) := by
      intro hb
      apply hgate
      simp only [benignExplosive, Bool.and_eq_true, Bool.or_eq_true] at hb
      rcases hb.2 with h | h
      · simp [hb.1, h.1]
      · simp [hb.1, h.1]
    rw [if_neg (fun hc => hbe hc.2)]
    simp

/-- One benign play through the full per-play loop body: the Turnovers and
Explosive Plays counters advance by the common contributions and the tracker
stays at `0.5 / 0.5`. -/
theorem processPlay_benign (ctx : ProcCtx) (tid : String) (st : ProcState)
    (p : Play)
    (hben : cacheBenignPlay tid p = true)
    (hm : ctx.probabilityMap = [])
    (ht : ctx.wpThreshold = 1)
    (hwh : st.prevHomeWp = 1 / 2) (hwa : st.prevAwayWp = 1 / 2)
    (hmem : memKey st.stats tid = true) :
    (∀ k, memKey st.stats k = true →
      (processPlay ctx tid st p).turnoversOf k =
        st.turnoversOf k + (if k = tid ∧ benignTO p = true then 1 else 0) ∧
      (processPlay ctx tid st p).explosiveOf k =
        st.explosiveOf k +
          (if k = tid ∧ benignExplosive p = true then 1 else 0)) ∧
    (processPlay ctx tid st p).prevHomeWp = 1 / 2 ∧
    (processPlay ctx tid st p).prevAwayWp = 1 / 2 := by
  obtain ⟨hid, hto2, heo, hitype, hmufft, hnul, hnp, hfum, hmuffed, honside,
    hig, hpen, hint⟩ := cacheBenignPlay_unpack tid p hben
  have hfum_e : strHas (pyLower (final_play_text (p.text.getD "")))
      "fumble" = false := strHas_event_false _ _ hfum
  have hons_e : strHas (pyLower (final_play_text (p.text.getD "")))
      "onside" = false := strHas_event_false _ _ honside
  have hmuffed_e : strHas (pyLower (final_play_text (p.text.getD "")))
      "muffed" = false := strHas_event_false _ _ hmuffed
  have hmp_e : strHas (pyLower (final_play_text (p.text.getD "")))
      "muffed punt" = false := strHas_mono_needle _ _ _ (by decide) hmuffed_e
  have hmk_e : strHas (pyLower (final_play_text (p.text.getD "")))
      "muffed kick" = false := strHas_mono_needle _ _ _ (by decide) hmuffed_e
  have hmko_e : strHas (pyLower (final_play_text (p.text.getD "")))
      "muffed kickoff" = false := strHas_mono_needle _ _ _ (by decide) hmuffed_e
  have hmuff : muffedKickOf (pyLower (final_play_text (p.text.getD "")))
      (pyLower (p.typeText.getD "Unknown")) = false := by
    simp [muffedKickOf, hmp_e, hmufft, hmk_e, hmko_e]
  have hnull : is_nullified_play (pyLower (p.text.getD "")) = false := by
    simp [is_nullified_play, hnul, hnp]
  have hcomp : is_competitive_play p ctx.probabilityMap ctx.wpThreshold
      (some st.prevHomeWp) (some st.prevAwayWp) = true := by
    rw [hm, ht, hwh, hwa]
    exact is_competitive_half p
  have hctb := computeTurnover_benign ctx.idToAbbr ctx.abbrToId
    (toInputOf ctx tid p) hitype hfum_e hmuff hons_e
  have hbeq : (!twoPointText (toInputOf ctx tid p).eventTextLower &&
      strHas (toInputOf ctx tid p).eventTextLower "intercept") = benignTO p := rfl
  have hev : (computeTurnover ctx.idToAbbr ctx.abbrToId
      (toInputOf ctx tid p)).events =
      (if benignTO p = true then [(startTeamIdOf tid p, "interception")]
       else []) := by
    rw [hctb.1, hbeq]
    rfl
  have hstt : benignTO p = true → startTeamIdOf tid p = tid := by
    intro hb
    rcases hint with hf | ⟨_, hstid⟩
    · have hif : strHas (pyLower (final_play_text (p.text.getD "")))
          "intercept" = false := strHas_event_false _ _ hf
      simp only [benignTO, hif, Bool.and_false] at hb
      cases hb
    · exact hstid
  have hy10 : benignTO p = true → p.statYardage.getD 0 < 10 := by
    intro hb
    rcases hint with hf | ⟨hy, _⟩
    · have hif : strHas (pyLower (final_play_text (p.text.getD "")))
          "intercept" = false := strHas_event_false _ _ hf
      simp only [benignTO, hif, Bool.and_false] at hb
      cases hb
    · exact hy
  have htop : (computeTurnover ctx.idToAbbr ctx.abbrToId
      (toInputOf ctx tid p)).turnoverOnPlay = benignTO p := by
    cases hb : benignTO p <;> simp [TOResult.turnoverOnPlay, hev, hb]
  rw [processPlay_main ctx tid st p hto2 heo hnull hcomp, hm, updatePrevWp_nil]
  refine ⟨?_, by simp [hwh], by simp [hwa]⟩
  intro k hmemk
  constructor
  · show ((lookupStr (offensiveSection ctx.expanded p tid
        (pyLower (p.text.getD "")) (final_play_text (p.text.getD ""))
        (p.text.getD "") _ _ _) k).getD {}).turnovers = _
    rw [(offensiveSection_preserves_turnovers ..).1,
      turnovers_applyTurnoverEvents _ _ _ _ _ _ _ _ hmemk, hev]
    cases hb : benignTO p
    · simp [ProcState.turnoversOf]
    · rw [hstt hb]
      by_cases hkt : tid = k
      · simp [List.filter_cons, hkt, hb, ProcState.turnoversOf]
      · simp [List.filter_cons, hkt, hb, Ne.symm hkt, ProcState.turnoversOf]
  · show ((lookupStr (offensiveSection ctx.expanded p tid
        (pyLower (p.text.getD "")) (final_play_text (p.text.getD ""))
        (p.text.getD "") _ _ _) k).getD {}).explosivePlays = _
    rw [offensiveSection_benign ctx.expanded p tid _ _ _ k
        (by rw [memKey_applyTurnoverEvents]; exact hmem) hpen hig hctb.2 htop
        hy10,
      explosive_applyTurnoverEvents]
    simp [ProcState.explosiveOf]

/-- The fresh-run fold over a benign play sequence counts exactly the common
contributions. -/
theorem fresh_fold_benign (ctx : ProcCtx)
    (hm : ctx.probabilityMap = []) (ht : ctx.wpThreshold = 1)
    (l : List (String × Play))
    (hb : ∀ tp ∈ l, cacheBenignPlay tp.1 tp.2 = true)
    (st : ProcState) (hwh : st.prevHomeWp = 1 / 2) (hwa : st.prevAwayWp = 1 / 2)
    (hmeml : ∀ tp ∈ l, memKey st.stats tp.1 = true)
    (k : String) (hmemk : memKey st.stats k = true) :
    (l.foldl (fun s tp => processPlay ctx tp.1 s tp.2) st).turnoversOf k =
      st.turnoversOf k + l.countP (fun tp => tp.1 == k && benignTO tp.2) ∧
    (l.foldl (fun s tp => processPlay ctx tp.1 s tp.2) st).explosiveOf k =
      st.explosiveOf k +
        l.countP (fun tp => tp.1 == k && benignExplosive tp.2) := by
  induction l generalizing st with
  | nil => simp
  | cons tp rest ih =>
    obtain ⟨hstep, hwh2, hwa2⟩ := processPlay_benign ctx tp.1 st tp.2
      (hb tp (List.mem_cons_self ..)) hm ht hwh hwa
      (hmeml tp (List.mem_cons_self ..))
    obtain ⟨htov, hexp⟩ := hstep k hmemk
    have hmem' : ∀ q ∈ rest,
        memKey (processPlay ctx tp.1 st tp.2).stats q.1 = true := by
      intro q hq
      rw [processPlay_memKey]
      exact hmeml q (List.mem_cons_of_mem _ hq)
    have hmemk' : memKey (processPlay ctx tp.1 st tp.2).stats k = true := by
      rw [processPlay_memKey]
      exact hmemk
    obtain ⟨ih1, ih2⟩ := ih (fun q hq => hb q (List.mem_cons_of_mem _ hq))
      (processPlay ctx tp.1 st tp.2) hwh2 hwa2 hmem' hmemk'
    have hiff1 : (if k = tp.1 ∧ benignTO tp.2 = true then 1 else 0) =
        (if (tp.1 == k && benignTO tp.2) = true then 1 else 0) := by
      by_cases hkt : tp.1 = k
      · cases hbt : benignTO tp.2 <;> simp [hkt, hbt, eq_comm]
      · simp [hkt, Ne.symm hkt]
    have hiff2 : (if k = tp.1 ∧ benignExplosive tp.2 = true then 1 else 0) =
        (if (tp.1 == k && benignExplosive tp.2) = true then 1 else 0) := by
      by_cases hkt : tp.1 = k
      · cases hbt : benignExplosive tp.2 <;> simp [hkt, hbt, eq_comm]
      · simp [hkt, Ne.symm hkt]
    constructor
    · rw [List.foldl_cons, ih1, htov, List.countP_cons, hiff1]
      omega
    · rw [List.foldl_cons, ih2, hexp, List.countP_cons, hiff2]
      omega

theorem mem_processedPlays (g : GameData) (tp : String × Play)
    (h : tp ∈ processedPlays g) :
    ∃ d ∈ g.drives, d.teamId = some tp.1 ∧ tp.2 ∈ d.plays := by
  unfold processedPlays at h
  rw [List.mem_flatten] at h
  obtain ⟨l, hl, htp⟩ := h
  rw [List.mem_map] at hl
  obtain ⟨d, hd, hrfl⟩ := hl
  rw [← hrfl] at htp
  unfold drivePlays at htp
  cases hdt : d.teamId with
  | none =>
    rw [hdt] at htp
    cases htp
  | some tid =>
    rw [hdt] at htp
    dsimp only at htp
    split at htp
    · rw [List.mem_map] at htp
      obtain ⟨p, hp, hep⟩ := htp
      refine ⟨d, hd, ?_, ?_⟩
      · rw [hdt, ← hep]
      · rw [← hep]
        exact hp
    · cases htp

/-- One benign play through the cache-snapshot builder: the tracker stays at
`0.5 / 0.5` and one entry carrying the common contribution flags is
appended. -/
theorem buildCachePlayStep_benign (known : List String) (abbr : String)
    (acc : List CachePlay) (p : Play)
    (hid : ¬ p.id.getD "" = "")
    (hfum : strHas (pyLower (final_play_text (p.text.getD "")))
      "fumble" = false) :
    ∃ e : CachePlay,
      buildCachePlayStep [] known abbr (1 / 2, 1 / 2, acc) p =
        (1 / 2, 1 / 2, acc ++ [e]) ∧
      e.driveTeam = abbr ∧
      e.startHomeWp = some (round4 (1 / 2)) ∧
      e.startAwayWp = some (round4 (1 / 2)) ∧
      e.isTurnover = benignTO p ∧
      e.isOffensive = (classify_offense_play p).1 ∧
      e.isRun = (classify_offense_play p).2.1 ∧
      e.isPass = (classify_offense_play p).2.2 ∧
      e.yards = p.statYardage.getD 0 := by
  simp only [buildCachePlayStep, probLookup_nil, Option.none_bind,
    Option.map_none', hid, if_false, hfum, Bool.and_false, Bool.false_and,
    Bool.false_eq_true, Bool.or_false]
  exact ⟨_, rfl, rfl, rfl, rfl, rfl, rfl, rfl, rfl, rfl⟩

theorem buildCache_plays_fold (known : List String)
    (idToAbbr : List (String × String)) (tid : String)
    (plays : List Play) (acc : List CachePlay)
    (hb : ∀ p ∈ plays, ¬ p.id.getD "" = "" ∧
      strHas (pyLower (final_play_text (p.text.getD ""))) "fumble" = false) :
    ∃ es,
      plays.foldl
        (buildCachePlayStep [] known ((lookupStr idToAbbr tid).getD ""))
        (1 / 2, 1 / 2, acc) = (1 / 2, 1 / 2, acc ++ es) ∧
      List.Forall₂ (cacheEntryMatches idToAbbr)
        (plays.map (fun p => (tid, p))) es := by
  induction plays generalizing acc with
  | nil => exact ⟨[], by simp, List.Forall₂.nil⟩
  | cons p rest ih =>
    obtain ⟨hid, hfum⟩ := hb p (List.mem_cons_self ..)
    obtain ⟨e, hstep, hdt, hsh, hsa, hto, hof, hrn, hps, hyd⟩ :=
      buildCachePlayStep_benign known ((lookupStr idToAbbr tid).getD "")
        acc p hid hfum
    obtain ⟨es, hfold, hmatch⟩ :=
      ih (acc ++ [e]) (fun q hq => hb q (List.mem_cons_of_mem _ hq))
    refine ⟨e :: es, ?_, ?_⟩
    · rw [List.foldl_cons, hstep, hfold, List.append_assoc]
      rfl
    · rw [List.map_cons]
      refine List.Forall₂.cons ?_ hmatch
      exact ⟨hdt, by rw [hsh, round4_half], by rw [hsa, round4_half],
        hto, hof, hrn, hps, hyd⟩

theorem buildCache_drives_fold (known : List String)
    (idToAbbr : List (String × String)) (base : StatsMap)
    (drives : List Drive) (acc : List CachePlay)
    (hdr : ∀ d ∈ drives, ∃ tid, d.teamId = some tid ∧ memKey base tid = true)
    (hb : ∀ d ∈ drives, ∀ p ∈ d.plays, ¬ p.id.getD "" = "" ∧
      strHas (pyLower (final_play_text (p.text.getD ""))) "fumble" = false) :
    ∃ es,
      drives.foldl
        (fun st d =>
          d.plays.foldl
            (buildCachePlayStep [] known
              (match d.teamId with
               | some tid => (lookupStr idToAbbr tid).getD ""
               | none => ""))
            st) (1 / 2, 1 / 2, acc) = (1 / 2, 1 / 2, acc ++ es) ∧
      List.Forall₂ (cacheEntryMatches idToAbbr)
        ((drives.map (drivePlays base)).flatten) es := by
  induction drives generalizing acc with
  | nil => exact ⟨[], by simp, List.Forall₂.nil⟩
  | cons d ds ih =>
    obtain ⟨tid, hdt, hmem⟩ := hdr d (List.mem_cons_self ..)
    obtain ⟨es1, hfold1, hmatch1⟩ := buildCache_plays_fold known idToAbbr tid
      d.plays acc (hb d (List.mem_cons_self ..))
    obtain ⟨es2, hfold2, hmatch2⟩ := ih (acc ++ es1)
      (fun d' hd' => hdr d' (List.mem_cons_of_mem _ hd'))
      (fun d' hd' => hb d' (List.mem_cons_of_mem _ hd'))
    refine ⟨es1 ++ es2, ?_, ?_⟩
    · rw [List.foldl_cons, hdt]
      dsimp only
      rw [hfold1, hfold2, List.append_assoc]
    · rw [List.map_cons, List.flatten_cons]
      have hdp : drivePlays base d = d.plays.map (fun p => (tid, p)) := by
        unfold drivePlays
        rw [hdt]
        dsimp only
        rw [if_pos hmem]
      rw [hdp]
      exact List.rel_append hmatch1 hmatch2

theorem buildCachePlays_benign (g : GameData)
    (hdr : ∀ d ∈ g.drives, ∃ tid, d.teamId = some tid ∧
      memKey (initStats g.teams) tid = true)
    (hb : ∀ d ∈ g.drives, ∀ p ∈ d.plays,
      cacheBenignPlay (d.teamId.getD "") p = true) :
    List.Forall₂ (cacheEntryMatches (buildIdToAbbr g.teams))
      (processedPlays g) (buildCachePlays g [] (1 / 2) (1 / 2)) := by
  have hb' : ∀ d ∈ g.drives, ∀ p ∈ d.plays, ¬ p.id.getD "" = "" ∧
      strHas (pyLower (final_play_text (p.text.getD ""))) "fumble" = false := by
    intro d hd p hp
    obtain ⟨h1, _, _, _, _, _, _, h8, _⟩ :=
      cacheBenignPlay_unpack (d.teamId.getD "") p (hb d hd p hp)
    exact ⟨h1, strHas_event_false _ _ h8⟩
  obtain ⟨es, heq, hmatch⟩ := buildCache_drives_fold
    (((buildIdToAbbr g.teams).map (·.2)).dedup) (buildIdToAbbr g.teams)
    (initStats g.teams) g.drives [] hdr hb'
  have hbc : buildCachePlays g [] (1 / 2) (1 / 2) = ([] : List CachePlay) ++ es :=
    congrArg (fun t => t.2.2) heq
  rw [hbc, List.nil_append]
  exact hmatch

/-- One cached benign entry through the rebuild loop: the Turnovers and
Explosive Plays entry lists grow by the entry's flags, charged to the team
its `driveTeam` abbreviation resolves to. -/
theorem rebuildStep_benign (hId hAbbr aId aAbbr : String) (st : RebuildState)
    (e : CachePlay) (tid : String)
    (hlook : lookupStr (dictInsert (dictInsert [] hAbbr hId) aAbbr aId)
      e.driveTeam = some tid)
    (htne : ¬ tid = "")
    (hsh : e.startHomeWp = some (1 / 2)) (hsa : e.startAwayWp = some (1 / 2))
    (k : String) :
    (rebuildStep hId hAbbr aId aAbbr 1 st e).turnoverCount k =
      st.turnoverCount k + (if tid = k ∧ e.isTurnover = true then 1 else 0) ∧
    (rebuildStep hId hAbbr aId aAbbr 1 st e).explosiveCount k =
      st.explosiveCount k +
        (if tid = k ∧ (e.isOffensive &&
            ((e.isRun && decide (e.yards ≥ 10)) ||
             (e.isPass && decide (e.yards ≥ 20)))) = true
         then 1 else 0) := by
  simp only [rebuildStep]
  rw [hlook]
  dsimp only
  rw [if_neg htne, hsh, hsa]
  dsimp only
  have hcomp : (if e.quarter.getD 0 ≥ 5 then true
      else decide ((1 : ℚ) / 2 < 1) && decide ((1 : ℚ) / 2 < 1)) = true := by
    split
    · rfl
    · have h12 : (1 : ℚ) / 2 < 1 := by norm_num
      rw [decide_eq_true h12]
      rfl
  rw [hcomp]
  simp only [Bool.not_true, Bool.false_eq_true, if_false]
  by_cases htk : tid = k
  · cases hT : e.isTurnover <;>
      cases hE : (e.isOffensive &&
        ((e.isRun && decide (e.yards ≥ 10)) ||
         (e.isPass && decide (e.yards ≥ 20)))) <;>
      simp [RebuildState.turnoverCount, RebuildState.explosiveCount, hT, hE,
        htk, List.filter_append]
  · cases hT : e.isTurnover <;>
      cases hE : (e.isOffensive &&
        ((e.isRun && decide (e.yards ≥ 10)) ||
         (e.isPass && decide (e.yards ≥ 20)))) <;>
      simp [RebuildState.turnoverCount, RebuildState.explosiveCount, hT, hE,
        htk, List.filter_append]

/-- Folding the rebuild loop over the cached entries of a benign play list
counts exactly the common contributions. -/
theorem rebuild_fold_benign (hId hAbbr aId aAbbr : String)
    (hh1 : ¬ hId = "") (ha1 : ¬ aId = "") (hidne : hId ≠ aId)
    (hab : hAbbr ≠ aAbbr)
    (l : List (String × Play)) (es : List CachePlay)
    (hmatch : List.Forall₂ (cacheEntryMatches [(hId, hAbbr), (aId, aAbbr)])
      l es)
    (hl : ∀ tp ∈ l, tp.1 = hId ∨ tp.1 = aId)
    (st : RebuildState) (k : String) :
    (es.foldl (rebuildStep hId hAbbr aId aAbbr 1) st).turnoverCount k =
      st.turnoverCount k + l.countP (fun tp => tp.1 == k && benignTO tp.2) ∧
    (es.foldl (rebuildStep hId hAbbr aId aAbbr 1) st).explosiveCount k =
      st.explosiveCount k +
        l.countP (fun tp => tp.1 == k && benignExplosive tp.2) := by
  induction hmatch generalizing st with
  | nil => simp
  | @cons tp e l' es' hrel hrest ih =>
    obtain ⟨hdrv, hsh, hsa, hto, hof, hrn, hps, hyd⟩ := hrel
    have hlook : lookupStr (dictInsert (dictInsert [] hAbbr hId) aAbbr aId)
        e.driveTeam = some tp.1 ∧ ¬ tp.1 = "" := by
      rcases hl tp (List.mem_cons_self ..) with h1 | h1
      · constructor
        · rw [hdrv, h1, dictInsert_two _ _ _ _ hab]
          simp [lookupStr_cons]
        · rw [h1]
          exact hh1
      · constructor
        · rw [hdrv, h1, dictInsert_two _ _ _ _ hab]
          simp [lookupStr_cons, hidne, hab]
        · rw [h1]
          exact ha1
    obtain ⟨hst1, hst2⟩ := rebuildStep_benign hId hAbbr aId aAbbr st e tp.1
      hlook.1 hlook.2 hsh hsa k
    obtain ⟨ih1, ih2⟩ := ih (fun q hq => hl q (List.mem_cons_of_mem _ hq))
      (rebuildStep hId hAbbr aId aAbbr 1 st e)
    have hiff1 : (if tp.1 = k ∧ e.isTurnover = true then 1 else 0) =
        (if (tp.1 == k && benignTO tp.2) = true then 1 else 0) := by
      rw [hto]
      by_cases hkt : tp.1 = k
      · cases hbt : benignTO tp.2 <;> simp [hkt, hbt]
      · simp [hkt]
    have hbe : (e.isOffensive &&
        ((e.isRun && decide (e.yards ≥ 10)) ||
         (e.isPass && decide (e.yards ≥ 20)))) = benignExplosive tp.2 := by
      rw [hof, hrn, hps, hyd]
      rfl
    have hiff2 : (if tp.1 = k ∧ (e.isOffensive &&
          ((e.isRun && decide (e.yards ≥ 10)) ||
           (e.isPass && decide (e.yards ≥ 20)))) = true then 1 else 0) =
        (if (tp.1 == k && benignExplosive tp.2) = true then 1 else 0) := by
      rw [hbe]
      by_cases hkt : tp.1 = k
      · cases hbt : benignExplosive tp.2 <;> simp [hkt, hbt]
      · simp [hkt]
    constructor
    · rw [List.foldl_cons, ih1, hst1, List.countP_cons, hiff1]
      omega
    · rw [List.foldl_cons, ih2, hst2, List.countP_cons, hiff2]
      omega

/-- C8 (amended): on the benign fragment — two box-score teams with distinct
nonempty ids and abbreviations, every drive owned by one of them, no
probability data, and every play benign per `cacheBenignPlay`, that is: a
present play id; a play-type text free of "timeout", "end of",
"interception" and "muff" (the fresh run's type-tag interception and
muffed-kick triggers, which the cache flag never reads); a play text free of
"nullified", "no play", "fumble", "muffed", "onside" and "intentional
grounding"; no penalty object; and every play whose text mentions
"intercept" gaining under 10 yards with the explicit start team absent,
blank, or the drive team — rebuilding expanded details from the compact
cache at threshold 1.0 yields Turnovers and Explosive Plays detail counts
equal to the fresh run's counters for both teams.  Outside that fragment the
two pipelines genuinely disagree (see the counterexample: a muffed punt is a
fresh-run turnover the cache flags never record). -/
theorem C8_cache_rebuild_equivalence (g : GameData)
    (hId hAbbr aId aAbbr : String)
    (hteams : g.teams = [(hId, hAbbr), (aId, aAbbr)])
    (hh1 : hId ≠ "") (hh2 : hAbbr ≠ "") (ha1 : aId ≠ "") (ha2 : aAbbr ≠ "")
    (hidne : hId ≠ aId) (hab : hAbbr ≠ aAbbr)
    (hdr : ∀ d ∈ g.drives, d.teamId = some hId ∨ d.teamId = some aId)
    (hb : ∀ d ∈ g.drives, ∀ p ∈ d.plays,
      cacheBenignPlay (d.teamId.getD "") p = true)
    (k : String) (hk : k = hId ∨ k = aId) :
    (rebuildFromCache hId hAbbr aId aAbbr 1
        (buildCachePlays g [] (1 / 2) (1 / 2))).turnoverCount k =
      (processGameStats g true [] none 1).turnoversOf k ∧
    (rebuildFromCache hId hAbbr aId aAbbr 1
        (buildCachePlays g [] (1 / 2) (1 / 2))).explosiveCount k =
      (processGameStats g true [] none 1).explosiveOf k := by
  have hidm : buildIdToAbbr g.teams = [(hId, hAbbr), (aId, aAbbr)] := by
    rw [hteams]
    exact buildIdToAbbr_pair hId hAbbr aId aAbbr hh1 hh2 ha1 ha2 hidne
  have hstm : initStats g.teams = [(hId, {}), (aId, {})] := by
    rw [hteams]
    exact initStats_pair hId hAbbr aId aAbbr hidne
  have hmemh : memKey (initStats g.teams) hId = true := by
    simp [hstm, memKey]
  have hmema : memKey (initStats g.teams) aId = true := by
    simp [hstm, memKey]
  have hdr' : ∀ d ∈ g.drives, ∃ tid, d.teamId = some tid ∧
      memKey (initStats g.teams) tid = true := by
    intro d hd
    rcases hdr d hd with h | h
    · exact ⟨hId, h, hmemh⟩
    · exact ⟨aId, h, hmema⟩
  have hpp : ∀ tp ∈ processedPlays g, (tp.1 = hId ∨ tp.1 = aId) ∧
      cacheBenignPlay tp.1 tp.2 = true := by
    intro tp htp
    obtain ⟨d, hd, hdt, hp⟩ := mem_processedPlays g tp htp
    constructor
    · rcases hdr d hd with h | h <;> rw [h] at hdt <;>
        [exact Or.inl (Option.some.inj hdt).symm;
         exact Or.inr (Option.some.inj hdt).symm]
    · have := hb d hd tp.2 hp
      rwa [hdt] at this
  -- fresh side
  have hwp := initStateOf_none_wp g
  have hfold : processGameStats g true [] none 1 =
      (processedPlays g).foldl
        (fun s tp => processPlay (procCtxOf g true [] 1) tp.1 s tp.2)
        (initStateOf g none) := by
    rw [processGameStats_eq_statesAfter]
    unfold statesAfter
    rw [List.take_length]
  have hinit_stats : (initStateOf g none).stats = initStats g.teams := rfl
  have hmemk : memKey (initStateOf g none).stats k = true := by
    rw [hinit_stats]
    rcases hk with h | h <;> rw [h]
    · exact hmemh
    · exact hmema
  obtain ⟨hfr1, hfr2⟩ := fresh_fold_benign (procCtxOf g true [] 1) rfl rfl
    (processedPlays g) (fun tp htp => (hpp tp htp).2) (initStateOf g none)
    hwp.1 hwp.2
    (fun tp htp => by
      rw [hinit_stats]
      rcases (hpp tp htp).1 with h | h <;> rw [h]
      · exact hmemh
      · exact hmema)
    k hmemk
  have hinit0 : (initStateOf g none).turnoversOf k = 0 ∧
      (initStateOf g none).explosiveOf k = 0 := by
    have hlk : lookupStr (initStateOf g none).stats k = some {} := by
      rw [hinit_stats, hstm]
      rcases hk with h | h <;> rw [h] <;> simp [lookupStr_cons, hidne]
    constructor <;> simp [ProcState.turnoversOf, ProcState.explosiveOf, hlk]
  -- cache side
  have hmatch := buildCachePlays_benign g hdr' hb
  rw [hidm] at hmatch
  obtain ⟨hrb1, hrb2⟩ := rebuild_fold_benign hId hAbbr aId aAbbr hh1 ha1 hidne
    hab (processedPlays g) (buildCachePlays g [] (1 / 2) (1 / 2)) hmatch
    (fun tp htp => (hpp tp htp).1) {} k
  have hreb : rebuildFromCache hId hAbbr aId aAbbr 1
      (buildCachePlays g [] (1 / 2) (1 / 2)) =
      (buildCachePlays g [] (1 / 2) (1 / 2)).foldl
        (rebuildStep hId hAbbr aId aAbbr 1) {} := rfl
  have hz1 : (({} : RebuildState)).turnoverCount k = 0 := rfl
  have hz2 : (({} : RebuildState)).explosiveCount k = 0 := rfl
  constructor
  · rw [hreb, hrb1, hz1, hfold, hfr1, hinit0.1]
  · rw [hreb, hrb2, hz2, hfold, hfr2, hinit0.2]

/-- Witness for C8: the benign pass-and-interception game. -/
theorem C8_cache_rebuild_equivalence_witness :
    (∀ d ∈ benignGame.drives, ∀ p ∈ d.plays,
      cacheBenignPlay (d.teamId.getD "") p = true) ∧
    ((rebuildFromCache "1" "AAA" "2" "BBB" 1
        (buildCachePlays benignGame [] (1 / 2) (1 / 2))).turnoverCount "1" =
      (processGameStats benignGame true [] none 1).turnoversOf "1" ∧
     (rebuildFromCache "1" "AAA" "2" "BBB" 1
        (buildCachePlays benignGame [] (1 / 2) (1 / 2))).explosiveCount "1" =
      (processGameStats benignGame true [] none 1).explosiveOf "1") :=
  ⟨by decide,
   C8_cache_rebuild_equivalence benignGame "1" "AAA" "2" "BBB" rfl
     (by decide) (by decide) (by decide) (by decide) (by decide) (by decide)
     (by decide) (by decide) "1" (Or.inl rfl)⟩

unseal Rat.add Rat.sub Rat.mul Rat.inv Rat.ofScientific in
/-- C8 counterexample: a muffed punt recovered by the kicking team is a
turnover in the fresh run (charged to the receiving team) but the compact
cache records no turnover flag for it, so the rebuilt Turnovers count
disagrees with the fresh counter. -/
theorem C8_counterexample :
    (processGameStats muffedPuntGame true [] none 1).turnoversOf "2" = 1 ∧
    (rebuildFromCache "1" "AAA" "2" "BBB" 1
        (buildCachePlays muffedPuntGame [] (1 / 2) (1 / 2))).turnoverCount "2"
      = 0 := ⟨rfl, rfl⟩

end NflCore
